import Mathlib

/-!
Shallow embedding of the pipe-flow and pipe-diameter solvers of
`physchem.py` (AguaClara plant-design library) together with the
closed-form hydraulics formulas they call.

Modelling conventions.
Python floats are modelled as real numbers.  Every error a call can
raise is a constructor of `PyErr`, and fallible functions return
`Except PyErr ℝ`.  A division whose denominator can be zero on a
reachable path is modelled by `pydiv`, which raises `zeroDivision`
exactly where Python would raise `ZeroDivisionError`; a division whose
denominator is provably non-zero on every path that reaches it (because
an earlier check or an earlier division already ruled zero out) is kept
as plain real division.  The Python truthiness operator `and` on floats
is `pand`.  The two `while` loops of the solvers are modelled by
fuel-indexed recursion (`loopGo`); the value `Except.ok none` means the
loop is still running after the given number of iterations, so the
behaviour of the Python loop is the union over all fuels.
-/

namespace Physchem

noncomputable section

/-- Errors a modelled call can raise: Python `ValueError`,
`ZeroDivisionError` and `UnboundLocalError`, plus a marker for the
NumPy-array broadcasting (several list arguments at once) that this
embedding does not model. -/
inductive PyErr
  | valueError
  | zeroDivision
  | unboundLocal
  | notModelled
  deriving DecidableEq

/-- Result of a Python computation returning one float. -/
abbrev Res := Except PyErr ℝ

/-- Python float division: raises `ZeroDivisionError` on a zero
denominator. -/
def pydiv (a b : ℝ) : Res :=
  if b = 0 then .error .zeroDivision else .ok (a / b)

/-- Python `a and b` on floats: `0.0` is falsy and short-circuits, any
other float yields the second operand. -/
def pand (a b : ℝ) : ℝ :=
  if a = 0 then a else b

/-- Gravitational constant, from `physchem.py` line 23. -/
def gravity : ℝ := 9.80665

/-- Laminar/turbulent transition Reynolds number, line 47. -/
def RE_TRANSITION_PIPE : ℝ := 2100

/-- Translation of `area_circle` (line 30). -/
def area_circle (DiamCircle : ℝ) : Res :=
  if DiamCircle ≤ 0 then .error .valueError
  else .ok (Real.pi / 4 * DiamCircle ^ 2)

/-- Translation of `re_pipe` (line 97): Reynolds number of a pipe.
`Diam = 0` makes the denominator zero and raises in Python. -/
def re_pipe (FlowRate Diam Nu : ℝ) : Res :=
  if ¬ (0 < Nu ∧ Nu < 1) then .error .valueError
  else pydiv (4 * FlowRate) (Real.pi * Diam * Nu)

/-- Translation of `fric` (line 159): friction factor.  In the
turbulent branch `Diam ≠ 0` (otherwise `re_pipe` already raised) and
`re ^ 0.9 ≠ 0`, so those inner divisions are plain; the laminar
`64 / re` raises when the Reynolds number is zero. -/
def fric (FlowRate Diam Nu PipeRough : ℝ) : Res :=
  (re_pipe FlowRate Diam Nu).bind fun re =>
    if re ≥ RE_TRANSITION_PIPE then
      pydiv 0.25
        ((Real.logb 10 (PipeRough / (3.7 * Diam) + 5.74 / re ^ (0.9 : ℝ))) ^ 2)
    else
      pydiv 64 re

/-- Translation of `headloss_fric` (line 232): major (wall-shear) head
loss.  When `fric` succeeds, `Diam ≠ 0`, so the division by `Diam ^ 5`
cannot raise. -/
def headloss_fric (FlowRate Diam Length Nu PipeRough : ℝ) : Res :=
  if Length ≤ 0 then .error .valueError
  else (fric FlowRate Diam Nu PipeRough).bind fun f =>
    .ok (f * 8 / (gravity * Real.pi ^ 2) * (Length * FlowRate ^ 2) / Diam ^ 5)

/-- Translation of `headloss_exp` (line 248): minor (expansion) head
loss.  The first check passes only when `FlowRate ≠ 0 ∧ 0 < Diam`, so
the division by `Diam ^ 4` cannot raise. -/
def headloss_exp (FlowRate Diam KMinor : ℝ) : Res :=
  if pand FlowRate Diam ≤ 0 then .error .valueError
  else if KMinor < 0 then .error .valueError
  else .ok (KMinor * 8 / (gravity * Real.pi ^ 2) * FlowRate ^ 2 / Diam ^ 4)

/-- Translation of `flow_transition` (line 511): flow rate at the
laminar/turbulent transition. -/
def flow_transition (Diam Nu : ℝ) : Res :=
  if Diam ≤ 0 then .error .valueError
  else if ¬ (0 < Nu ∧ Nu < 1) then .error .valueError
  else .ok (Real.pi * Diam * RE_TRANSITION_PIPE * Nu / 4)

/-- Translation of `flow_hagen` (line 525): laminar major-loss-only
flow.  After the first check `Diam ≠ 0 ∧ 0 < Length`, and the third
check gives `Nu ≠ 0`, so both divisions are safe. -/
def flow_hagen (Diam HeadLossFric Length Nu : ℝ) : Res :=
  if pand Diam Length ≤ 0 then .error .valueError
  else if HeadLossFric < 0 then .error .valueError
  else if ¬ (0 < Nu ∧ Nu < 1) then .error .valueError
  else .ok (Real.pi * Diam ^ 4 / (128 * Nu) * gravity * HeadLossFric / Length)

/-- Translation of `flow_swamee` (line 538): turbulent major-loss-only
flow.  `HeadLossFric = 0` makes the denominator under the square root
zero and raises in Python, hence the `pydiv`; the other denominators
are non-zero after the checks.  (A negative `Diam` would give a complex
`Diam ** 2.5` in Python; that path is outside the claims and modelled
by the real `rpow`.) -/
def flow_swamee (Diam HeadLossFric Length Nu PipeRough : ℝ) : Res :=
  if pand Diam Length ≤ 0 then .error .valueError
  else if HeadLossFric < 0 then .error .valueError
  else if ¬ (0 < pand Nu PipeRough ∧ pand Nu PipeRough < 1) then .error .valueError
  else (pydiv Length (2 * gravity * HeadLossFric * Diam ^ 3)).bind fun t =>
    .ok ((Real.pi / Real.sqrt 2) * Diam ^ ((5 : ℝ) / 2) *
      Real.sqrt (gravity * HeadLossFric / Length) *
      (-(Real.logb 10 (PipeRough / (3.7 * Diam) + 2.51 * Nu * Real.sqrt t))))

/-- Translation of `flow_pipemajor` (line 560): major-loss-only flow,
choosing the laminar or turbulent closed form. -/
def flow_pipemajor (Diam HeadLossFric Length Nu PipeRough : ℝ) : Res :=
  (flow_hagen Diam HeadLossFric Length Nu).bind fun FlowHagen =>
    (flow_transition Diam Nu).bind fun ft =>
      if FlowHagen < ft then .ok FlowHagen
      else flow_swamee Diam HeadLossFric Length Nu PipeRough

/-- Translation of `flow_pipeminor` (line 575): minor-loss-only flow.
`KMinor = 0` passes the check (Python `0 and K` short-circuits on a
zero head loss, and a zero `KMinor` is itself falsy) and then the
division by `KMinor` raises. -/
def flow_pipeminor (Diam HeadLossExpans KMinor : ℝ) : Res :=
  if ¬ (0 ≤ pand HeadLossExpans KMinor) then .error .valueError
  else (area_circle Diam).bind fun a =>
    (pydiv (2 * gravity * HeadLossExpans) KMinor).bind fun t =>
      .ok (a * Real.sqrt t)

/-- One iteration of the `flow_pipe` loop body (lines 613-622): rescale
the target head loss by the friction fraction at the current flow
estimate and invert the major-loss formula.  The source evaluates
`headloss_fric` twice with identical arguments; being pure, it is
called once here. -/
def flowStep (Diam Length Nu PipeRough KMinor HeadLoss FlowRate : ℝ) : Res :=
  (headloss_fric FlowRate Diam Length Nu PipeRough).bind fun hf =>
    (headloss_exp FlowRate Diam KMinor).bind fun he =>
      (pydiv (HeadLoss * hf) (hf + he)).bind fun HLFricNew =>
        flow_pipemajor Diam HLFricNew Length Nu PipeRough

/-- Relative-error computation of the `flow_pipe` loop (lines 623-626):
a zero new estimate short-circuits to zero error, otherwise
`|new - old| / (new + old)` (which raises when the denominator is
zero). -/
def flowErr (FlowRate FlowRatePrev : ℝ) : Res :=
  if FlowRate = 0 then .ok 0
  else pydiv |FlowRate - FlowRatePrev| (FlowRate + FlowRatePrev)

/-- Translation of `diam_hagen` (line 630): laminar major-loss-only
diameter.  `HeadLossFric = 0` zeroes the denominator and raises. -/
def diam_hagen (FlowRate HeadLossFric Length Nu : ℝ) : Res :=
  if pand FlowRate Length ≤ 0 then .error .valueError
  else if HeadLossFric < 0 then .error .valueError
  else if ¬ (0 < Nu ∧ Nu < 1) then .error .valueError
  else (pydiv (128 * Nu * FlowRate * Length) (gravity * HeadLossFric * Real.pi)).bind
    fun t => .ok (t ^ ((1 : ℝ) / 4))

/-- Translation of `diam_swamee` (line 645): turbulent major-loss-only
diameter.  `HeadLossFric = 0` zeroes both inner denominators. -/
def diam_swamee (FlowRate HeadLossFric Length Nu PipeRough : ℝ) : Res :=
  if pand FlowRate Length ≤ 0 then .error .valueError
  else if HeadLossFric < 0 then .error .valueError
  else if ¬ (0 < pand Nu PipeRough ∧ pand Nu PipeRough < 1) then .error .valueError
  else (pydiv (Length * FlowRate ^ 2) (gravity * HeadLossFric)).bind fun t1 =>
    (pydiv Length (gravity * HeadLossFric)).bind fun t2 =>
      .ok (0.66 * (PipeRough ^ ((1.25 : ℝ)) * t1 ^ ((4.75 : ℝ)) +
        Nu * FlowRate ^ ((9.4 : ℝ)) * t2 ^ ((5.2 : ℝ))) ^ ((0.04 : ℝ)))

/-- Translation of `diam_pipemajor` (line 671): major-loss-only
diameter, accepting the laminar estimate when the Reynolds number it
implies is at or below the transition. -/
def diam_pipemajor (FlowRate HeadLossFric Length Nu PipeRough : ℝ) : Res :=
  (diam_hagen FlowRate HeadLossFric Length Nu).bind fun DiamLaminar =>
    (re_pipe FlowRate DiamLaminar Nu).bind fun r =>
      if r ≤ RE_TRANSITION_PIPE then .ok DiamLaminar
      else diam_swamee FlowRate HeadLossFric Length Nu PipeRough

/-- Translation of `diam_pipeminor` (line 687): minor-loss-only
diameter.  `HeadLossExpans = 0` zeroes the denominator and raises. -/
def diam_pipeminor (FlowRate HeadLossExpans KMinor : ℝ) : Res :=
  if FlowRate ≤ 0 then .error .valueError
  else if ¬ (0 ≤ pand HeadLossExpans KMinor) then .error .valueError
  else (pydiv KMinor (2 * gravity * HeadLossExpans)).bind fun t =>
    .ok (Real.sqrt (4 * FlowRate / Real.pi) * t ^ ((1 : ℝ) / 4))

/-- One iteration of the `diam_pipe` loop body (lines 718-731). -/
def diamStep (FlowRate Length Nu PipeRough KMinor HeadLoss Diam : ℝ) : Res :=
  (headloss_fric FlowRate Diam Length Nu PipeRough).bind fun hf =>
    (headloss_exp FlowRate Diam KMinor).bind fun he =>
      (pydiv (HeadLoss * hf) (hf + he)).bind fun HLFricNew =>
        diam_pipemajor FlowRate HLFricNew Length Nu PipeRough

/-- Relative-error computation of the `diam_pipe` loop (line 732):
`|new - old| / ((new + old) / 2)` with no zero-estimate guard. -/
def diamErr (Diam DiamPrev : ℝ) : Res :=
  pydiv |Diam - DiamPrev| ((Diam + DiamPrev) / 2)

/-- Iterate sequence of a loop body: `iterSeq step x0 n` is the estimate
after `n` successful iterations starting from `x0`. -/
def iterSeq (step : ℝ → Res) (x0 : ℝ) : ℕ → Res
  | 0 => .ok x0
  | n + 1 => (iterSeq step x0 n).bind step

/-- Fuel-indexed model of the `while err > tol` loops of the solvers.  The
estimate entering the loop has error `1 > tol`, so the body always runs
at least once; `ok none` means the loop is still running when the fuel
runs out. -/
def loopGo (step : ℝ → Res) (errf : ℝ → ℝ → Res) (tol : ℝ) :
    ℕ → ℝ → Except PyErr (Option ℝ)
  | 0, _ => .ok none
  | n + 1, x =>
    (step x).bind fun y =>
      (errf y x).bind fun e =>
        if e ≤ tol then .ok (some y) else loopGo step errf tol n y

/-- A stopping iteration: both surrounding iterates exist and the error
computation returns a value within tolerance. -/
def stopP (step : ℝ → Res) (errf : ℝ → ℝ → Res) (tol x0 : ℝ) (k : ℕ) : Prop :=
  ∃ a b e, iterSeq step x0 k = .ok a ∧ iterSeq step x0 (k + 1) = .ok b ∧
    errf b a = .ok e ∧ e ≤ tol

/-- A continuing iteration: both surrounding iterates exist and the
error computation returns a value above tolerance. -/
def contP (step : ℝ → Res) (errf : ℝ → ℝ → Res) (tol x0 : ℝ) (k : ℕ) : Prop :=
  ∃ a b e, iterSeq step x0 k = .ok a ∧ iterSeq step x0 (k + 1) = .ok b ∧
    errf b a = .ok e ∧ tol < e

/-- Translation of `flow_pipe` (line 593), with an explicit iteration
budget `fuel` for the `while` loop. -/
def flow_pipe (fuel : ℕ) (Diam HeadLoss Length Nu PipeRough KMinor : ℝ) :
    Except PyErr (Option ℝ) :=
  if KMinor = 0 then
    (flow_pipemajor Diam HeadLoss Length Nu PipeRough).map some
  else
    (flow_pipemajor Diam HeadLoss Length Nu PipeRough).bind fun fmaj =>
      (flow_pipeminor Diam HeadLoss KMinor).bind fun fmin =>
        loopGo (flowStep Diam Length Nu PipeRough KMinor HeadLoss) flowErr 0.01
          fuel (min fmaj fmin)

/-- Translation of `diam_pipe` (line 703), with an explicit iteration
budget `fuel` for the `while` loop. -/
def diam_pipe (fuel : ℕ) (FlowRate HeadLoss Length Nu PipeRough KMinor : ℝ) :
    Except PyErr (Option ℝ) :=
  if KMinor = 0 then
    (diam_pipemajor FlowRate HeadLoss Length Nu PipeRough).map some
  else
    (diam_pipemajor FlowRate HeadLoss Length Nu PipeRough).bind fun dmaj =>
      (diam_pipeminor FlowRate HeadLoss KMinor).bind fun dmin =>
        loopGo (diamStep FlowRate Length Nu PipeRough KMinor HeadLoss) diamErr 0.001
          fuel (max dmaj dmin)

/-- Stopping rule of the flow solver as the spec states it: relative
change `|new - old| / (new + old)` at most 1 percent, a zero new
estimate counting as converged. -/
def flowStopSpec (new old : ℝ) : Prop :=
  new = 0 ∨ (new + old ≠ 0 ∧ |new - old| / (new + old) ≤ 0.01)

/-- Continuation rule of the flow solver as the spec states it: the
relative change is defined and above 1 percent. -/
def flowContSpec (new old : ℝ) : Prop :=
  new ≠ 0 ∧ new + old ≠ 0 ∧ 0.01 < |new - old| / (new + old)

/-- Stopping rule of the diameter solver as the spec states it:
relative change `|new - old| / ((new + old) / 2)` at most 0.1 percent. -/
def diamStopSpec (new old : ℝ) : Prop :=
  (new + old) / 2 ≠ 0 ∧ |new - old| / ((new + old) / 2) ≤ 0.001

/-- Continuation rule of the diameter solver as the spec states it. -/
def diamContSpec (new old : ℝ) : Prop :=
  (new + old) / 2 ≠ 0 ∧ 0.001 < |new - old| / ((new + old) / 2)

/-- The flow solver never returns a value at the given inputs: for
every iteration budget it has either raised an error or is still
iterating. -/
def returnsNoFlow (Diam HeadLoss Length Nu PipeRough KMinor : ℝ) : Prop :=
  ∀ n q, flow_pipe n Diam HeadLoss Length Nu PipeRough KMinor ≠ .ok (some q)

/-- Concrete round-trip total head loss used against the round-trip
claim: the value of `headloss_fric + headloss_exp` at flow rate `1`,
diameter `1/100`, length `1`, viscosity `1/2`, roughness `1/2` and
minor-loss coefficient `1000000`. -/
def roundTripHead : ℝ :=
  6400000000 / (gravity * Real.pi) + 800000000000000 / (gravity * Real.pi ^ 2)

/-- A Python argument that is either a float or a list of floats, for
the `headloss` wrapper. -/
inductive PyVal
  | scalar (x : ℝ)
  | plist (xs : List ℝ)

/-- Using an argument as one float.  A list argument left in scalar
position is NumPy broadcasting in the source, which this embedding
marks as not modelled. -/
def asScalar : PyVal → Res
  | .scalar x => .ok x
  | .plist _ => .error .notModelled

/-- One element of the `headloss` loop body (lines 285-286): major plus
minor head loss at fully scalar arguments. -/
def headlossOne (FlowRate Diam Length Nu PipeRough KMinor : ℝ) : Res :=
  (headloss_fric FlowRate Diam Length Nu PipeRough).bind fun hf =>
    (headloss_exp FlowRate Diam KMinor).bind fun he => .ok (hf + he)

/-- Translation of `headloss` (line 263): the source scans the six
arguments and keeps the index of the LAST list among them; with no list
argument the index variable is never bound and Python raises
`UnboundLocalError`; otherwise it substitutes each element of that last
list in turn and collects the per-element total head losses. -/
def headloss (FlowRate Diam Length Nu PipeRough KMinor : PyVal) :
    Except PyErr (List ℝ) :=
  match KMinor with
  | .plist ks => ks.mapM fun k =>
      (asScalar FlowRate).bind fun q => (asScalar Diam).bind fun d =>
        (asScalar Length).bind fun l => (asScalar Nu).bind fun nu =>
          (asScalar PipeRough).bind fun r => headlossOne q d l nu r k
  | .scalar k =>
    match PipeRough with
    | .plist rs => rs.mapM fun r =>
        (asScalar FlowRate).bind fun q => (asScalar Diam).bind fun d =>
          (asScalar Length).bind fun l => (asScalar Nu).bind fun nu =>
            headlossOne q d l nu r k
    | .scalar r =>
      match Nu with
      | .plist nus => nus.mapM fun nu =>
          (asScalar FlowRate).bind fun q => (asScalar Diam).bind fun d =>
            (asScalar Length).bind fun l => headlossOne q d l nu r k
      | .scalar nu =>
        match Length with
        | .plist ls => ls.mapM fun l =>
            (asScalar FlowRate).bind fun q => (asScalar Diam).bind fun d =>
              headlossOne q d l nu r k
        | .scalar l =>
          match Diam with
          | .plist ds => ds.mapM fun d =>
              (asScalar FlowRate).bind fun q => headlossOne q d l nu r k
          | .scalar d =>
            match FlowRate with
            | .plist qs => qs.mapM fun q => headlossOne q d l nu r k
            | .scalar _ => .error .unboundLocal

end

/-! Basic lemmas about the embedding combinators. -/

theorem ok_bind {α β : Type} (a : α) (f : α → Except PyErr β) :
    (Except.ok a : Except PyErr α).bind f = f a := rfl

theorem error_bind {α β : Type} (e : PyErr) (f : α → Except PyErr β) :
    (Except.error e : Except PyErr α).bind f = .error e := rfl

theorem bind_eq_ok_iff {α β : Type} (x : Except PyErr α) (f : α → Except PyErr β) (v : β) :
    x.bind f = .ok v ↔ ∃ a, x = .ok a ∧ f a = .ok v := by
  cases x <;> simp [Except.bind]

theorem map_eq_ok_iff {α β : Type} (g : α → β) (x : Except PyErr α) (v : β) :
    x.map g = .ok v ↔ ∃ a, x = .ok a ∧ g a = v := by
  cases x <;> simp [Except.map]

theorem pydiv_of_ne {b : ℝ} (a : ℝ) (h : b ≠ 0) : pydiv a b = .ok (a / b) := if_neg h

theorem pydiv_denom_zero (a : ℝ) : pydiv a 0 = .error .zeroDivision := if_pos rfl

theorem pydiv_eq_ok_iff {a b v : ℝ} : pydiv a b = .ok v ↔ b ≠ 0 ∧ a / b = v := by
  unfold pydiv
  split <;> simp_all

theorem pand_of_ne {a : ℝ} (b : ℝ) (h : a ≠ 0) : pand a b = b := if_neg h

theorem pand_self_zero (b : ℝ) : pand 0 b = 0 := if_pos rfl

theorem gravity_pos : 0 < gravity := by norm_num [gravity]

/-! Generic theory of the fuel-indexed `while err > tol` loop. -/

theorem iterSeq_zero (step : ℝ → Res) (x0 : ℝ) : iterSeq step x0 0 = .ok x0 := rfl

theorem iterSeq_succ (step : ℝ → Res) (x0 : ℝ) (n : ℕ) :
    iterSeq step x0 (n + 1) = (iterSeq step x0 n).bind step := rfl

theorem iterSeq_one {step : ℝ → Res} {x0 : ℝ} : iterSeq step x0 1 = step x0 := rfl

theorem iterSeq_shift {step : ℝ → Res} {x0 y : ℝ} (h : step x0 = .ok y) :
    ∀ n : ℕ, iterSeq step x0 (n + 1) = iterSeq step y n := by
  intro n
  induction n with
  | zero => rw [iterSeq_succ, iterSeq_zero, ok_bind, h, iterSeq_zero]
  | succ n ih => rw [iterSeq_succ, ih, ← iterSeq_succ]

theorem stopP_shift {step : ℝ → Res} {errf : ℝ → ℝ → Res} {tol : ℝ} {x0 y : ℝ}
    (h : step x0 = .ok y) (k : ℕ) :
    stopP step errf tol x0 (k + 1) ↔ stopP step errf tol y k := by
  unfold stopP
  rw [iterSeq_shift h k, iterSeq_shift h (k + 1)]

theorem contP_shift {step : ℝ → Res} {errf : ℝ → ℝ → Res} {tol : ℝ} {x0 y : ℝ}
    (h : step x0 = .ok y) (k : ℕ) :
    contP step errf tol x0 (k + 1) ↔ contP step errf tol y k := by
  unfold contP
  rw [iterSeq_shift h k, iterSeq_shift h (k + 1)]

theorem loopGo_zero (step : ℝ → Res) (errf : ℝ → ℝ → Res) (tol x : ℝ) :
    loopGo step errf tol 0 x = .ok none := rfl

theorem loopGo_succ (step : ℝ → Res) (errf : ℝ → ℝ → Res) (tol : ℝ) (n : ℕ) (x : ℝ) :
    loopGo step errf tol (n + 1) x =
      (step x).bind fun y => (errf y x).bind fun e =>
        if e ≤ tol then .ok (some y) else loopGo step errf tol n y := rfl

theorem loopGo_ok_some {step : ℝ → Res} {errf : ℝ → ℝ → Res} {tol : ℝ} :
    ∀ {n : ℕ} {x0 q : ℝ}, loopGo step errf tol n x0 = .ok (some q) →
      ∃ k, iterSeq step x0 (k + 1) = .ok q ∧ stopP step errf tol x0 k ∧
        ∀ j < k, contP step errf tol x0 j := by
  intro n
  induction n with
  | zero => intro x0 q h; rw [loopGo_zero] at h; simp at h
  | succ n ih =>
    intro x0 q h
    rw [loopGo_succ] at h
    cases hs : step x0 with
    | error e => rw [hs, error_bind] at h; simp at h
    | ok y =>
      rw [hs, ok_bind] at h
      cases he : errf y x0 with
      | error e => rw [he, error_bind] at h; simp at h
      | ok e =>
        rw [he, ok_bind] at h
        by_cases hle : e ≤ tol
        · rw [if_pos hle] at h
          have hy : y = q := by simpa using h
          subst hy
          have hone : iterSeq step x0 (0 + 1) = .ok y := by
            rw [iterSeq_succ, iterSeq_zero, ok_bind, hs]
          refine ⟨0, hone, ⟨x0, y, e, iterSeq_zero step x0, hone, he, hle⟩, ?_⟩
          intro j hj
          exact absurd hj (Nat.not_lt_zero j)
        · rw [if_neg hle] at h
          obtain ⟨k, h1, h2, h3⟩ := ih h
          have hone : iterSeq step x0 (0 + 1) = .ok y := by
            rw [iterSeq_succ, iterSeq_zero, ok_bind, hs]
          refine ⟨k + 1, ?_, ?_, ?_⟩
          · rw [iterSeq_shift hs]; exact h1
          · exact (stopP_shift hs k).mpr h2
          · intro j hj
            cases j with
            | zero =>
              exact ⟨x0, y, e, iterSeq_zero step x0, hone, he, not_le.mp hle⟩
            | succ j =>
              exact (contP_shift hs j).mpr (h3 j (by omega))

theorem loopGo_of_stop {step : ℝ → Res} {errf : ℝ → ℝ → Res} {tol : ℝ} :
    ∀ {k : ℕ} {x0 q : ℝ}, iterSeq step x0 (k + 1) = .ok q →
      stopP step errf tol x0 k → (∀ j < k, contP step errf tol x0 j) →
      loopGo step errf tol (k + 1) x0 = .ok (some q) := by
  intro k
  induction k with
  | zero =>
    intro x0 q h1 h2 _
    obtain ⟨a, b, e, ha, hb, he, hle⟩ := h2
    rw [iterSeq_zero] at ha
    have ha' : a = x0 := by simpa using ha.symm
    subst ha'
    rw [iterSeq_succ, iterSeq_zero, ok_bind] at hb
    rw [iterSeq_succ, iterSeq_zero, ok_bind, hb] at h1
    have hq : b = q := by simpa using h1
    subst hq
    rw [loopGo_succ, hb, ok_bind, he, ok_bind, if_pos hle]
  | succ k ih =>
    intro x0 q h1 h2 h3
    obtain ⟨a, b, e, ha, hb, he, hgt⟩ := h3 0 (Nat.succ_pos k)
    rw [iterSeq_zero] at ha
    have ha' : a = x0 := by simpa using ha.symm
    subst ha'
    rw [iterSeq_succ, iterSeq_zero, ok_bind] at hb
    rw [loopGo_succ, hb, ok_bind, he, ok_bind, if_neg (not_le.mpr hgt)]
    refine ih ?_ ((stopP_shift hb (k)).mp h2) ?_
    · rw [← iterSeq_shift hb]; exact h1
    · intro j hj
      exact (contP_shift hb j).mp (h3 (j + 1) (by omega))

theorem loopGo_some_iff (step : ℝ → Res) (errf : ℝ → ℝ → Res) (tol x0 q : ℝ) :
    (∃ n, loopGo step errf tol n x0 = .ok (some q)) ↔
    ∃ k, iterSeq step x0 (k + 1) = .ok q ∧ stopP step errf tol x0 k ∧
      ∀ j < k, contP step errf tol x0 j := by
  constructor
  · rintro ⟨n, h⟩
    exact loopGo_ok_some h
  · rintro ⟨k, h1, h2, h3⟩
    exact ⟨k + 1, loopGo_of_stop h1 h2 h3⟩

theorem loopGo_mono {step : ℝ → Res} {errf : ℝ → ℝ → Res} {tol : ℝ} :
    ∀ {n : ℕ} {x q : ℝ}, loopGo step errf tol n x = .ok (some q) →
      loopGo step errf tol (n + 1) x = .ok (some q) := by
  intro n
  induction n with
  | zero => intro x q h; rw [loopGo_zero] at h; simp at h
  | succ n ih =>
    intro x q h
    rw [loopGo_succ] at h
    rw [loopGo_succ]
    cases hs : step x with
    | error e => rw [hs, error_bind] at h; simp at h
    | ok y =>
      rw [hs, ok_bind] at h
      rw [ok_bind]
      cases he : errf y x with
      | error e => rw [he, error_bind] at h; simp at h
      | ok e =>
        rw [he, ok_bind] at h
        rw [ok_bind]
        by_cases hle : e ≤ tol
        · rw [if_pos hle] at h
          rw [if_pos hle]
          exact h
        · rw [if_neg hle] at h
          rw [if_neg hle]
          exact ih h

/-! Conversions between the error computations of the solvers and the claimed
stopping rules. -/

theorem flowErr_stop_iff (b a : ℝ) :
    (∃ e, flowErr b a = .ok e ∧ e ≤ 0.01) ↔ flowStopSpec b a := by
  unfold flowErr flowStopSpec
  by_cases hb : b = 0
  · rw [if_pos hb]
    constructor
    · intro _
      exact Or.inl hb
    · intro _
      exact ⟨0, rfl, by norm_num⟩
  · rw [if_neg hb]
    constructor
    · rintro ⟨e, h1, h2⟩
      rw [pydiv_eq_ok_iff] at h1
      exact Or.inr ⟨h1.1, by rw [h1.2]; exact h2⟩
    · rintro (h | ⟨h1, h2⟩)
      · exact absurd h hb
      · exact ⟨_, pydiv_of_ne _ h1, h2⟩

theorem flowErr_cont_iff (b a : ℝ) :
    (∃ e, flowErr b a = .ok e ∧ 0.01 < e) ↔ flowContSpec b a := by
  unfold flowErr flowContSpec
  by_cases hb : b = 0
  · rw [if_pos hb]
    constructor
    · rintro ⟨e, h1, h2⟩
      have he : e = 0 := by simpa using h1.symm
      rw [he] at h2
      norm_num at h2
    · rintro ⟨h0, _⟩
      exact absurd hb h0
  · rw [if_neg hb]
    constructor
    · rintro ⟨e, h1, h2⟩
      rw [pydiv_eq_ok_iff] at h1
      exact ⟨hb, h1.1, by rw [h1.2]; exact h2⟩
    · rintro ⟨h0, h1, h2⟩
      exact ⟨_, pydiv_of_ne _ h1, h2⟩

theorem diamErr_stop_iff (b a : ℝ) :
    (∃ e, diamErr b a = .ok e ∧ e ≤ 0.001) ↔ diamStopSpec b a := by
  unfold diamErr diamStopSpec
  constructor
  · rintro ⟨e, h1, h2⟩
    rw [pydiv_eq_ok_iff] at h1
    exact ⟨h1.1, by rw [h1.2]; exact h2⟩
  · rintro ⟨h1, h2⟩
    exact ⟨_, pydiv_of_ne _ h1, h2⟩

theorem diamErr_cont_iff (b a : ℝ) :
    (∃ e, diamErr b a = .ok e ∧ 0.001 < e) ↔ diamContSpec b a := by
  unfold diamErr diamContSpec
  constructor
  · rintro ⟨e, h1, h2⟩
    rw [pydiv_eq_ok_iff] at h1
    exact ⟨h1.1, by rw [h1.2]; exact h2⟩
  · rintro ⟨h1, h2⟩
    exact ⟨_, pydiv_of_ne _ h1, h2⟩

theorem stopP_flowErr_iff (step : ℝ → Res) (x0 : ℝ) (k : ℕ) :
    stopP step flowErr 0.01 x0 k ↔
      ∃ a b, iterSeq step x0 k = .ok a ∧ iterSeq step x0 (k + 1) = .ok b ∧
        flowStopSpec b a := by
  unfold stopP
  constructor
  · rintro ⟨a, b, e, h1, h2, h3, h4⟩
    exact ⟨a, b, h1, h2, (flowErr_stop_iff b a).mp ⟨e, h3, h4⟩⟩
  · rintro ⟨a, b, h1, h2, hs⟩
    obtain ⟨e, h3, h4⟩ := (flowErr_stop_iff b a).mpr hs
    exact ⟨a, b, e, h1, h2, h3, h4⟩

theorem contP_flowErr_iff (step : ℝ → Res) (x0 : ℝ) (k : ℕ) :
    contP step flowErr 0.01 x0 k ↔
      ∃ a b, iterSeq step x0 k = .ok a ∧ iterSeq step x0 (k + 1) = .ok b ∧
        flowContSpec b a := by
  unfold contP
  constructor
  · rintro ⟨a, b, e, h1, h2, h3, h4⟩
    exact ⟨a, b, h1, h2, (flowErr_cont_iff b a).mp ⟨e, h3, h4⟩⟩
  · rintro ⟨a, b, h1, h2, hs⟩
    obtain ⟨e, h3, h4⟩ := (flowErr_cont_iff b a).mpr hs
    exact ⟨a, b, e, h1, h2, h3, h4⟩

theorem stopP_diamErr_iff (step : ℝ → Res) (x0 : ℝ) (k : ℕ) :
    stopP step diamErr 0.001 x0 k ↔
      ∃ a b, iterSeq step x0 k = .ok a ∧ iterSeq step x0 (k + 1) = .ok b ∧
        diamStopSpec b a := by
  unfold stopP
  constructor
  · rintro ⟨a, b, e, h1, h2, h3, h4⟩
    exact ⟨a, b, h1, h2, (diamErr_stop_iff b a).mp ⟨e, h3, h4⟩⟩
  · rintro ⟨a, b, h1, h2, hs⟩
    obtain ⟨e, h3, h4⟩ := (diamErr_stop_iff b a).mpr hs
    exact ⟨a, b, e, h1, h2, h3, h4⟩

theorem contP_diamErr_iff (step : ℝ → Res) (x0 : ℝ) (k : ℕ) :
    contP step diamErr 0.001 x0 k ↔
      ∃ a b, iterSeq step x0 k = .ok a ∧ iterSeq step x0 (k + 1) = .ok b ∧
        diamContSpec b a := by
  unfold contP
  constructor
  · rintro ⟨a, b, e, h1, h2, h3, h4⟩
    exact ⟨a, b, h1, h2, (diamErr_cont_iff b a).mp ⟨e, h3, h4⟩⟩
  · rintro ⟨a, b, h1, h2, hs⟩
    obtain ⟨e, h3, h4⟩ := (diamErr_cont_iff b a).mpr hs
    exact ⟨a, b, e, h1, h2, h3, h4⟩

/-- Claim C1: with minor-loss coefficient exactly zero, `flow_pipe`
returns exactly the result of `flow_pipemajor` and `diam_pipe` exactly
the result of `diam_pipemajor` on the same arguments, for every
iteration budget (no iteration is performed: the result does not depend
on the budget). -/
theorem flow_diam_pipe_zero_minor_closed_form
    (Diam HeadLoss Length Nu PipeRough FlowRate : ℝ)
    (hD : 0 < Diam) (hH : 0 ≤ HeadLoss) (hL : 0 < Length)
    (hNu0 : 0 < Nu) (hNu1 : Nu < 1) (hr0 : 0 < PipeRough) (hr1 : PipeRough < 1)
    (hQ : 0 < FlowRate) :
    ∀ n m : ℕ,
      flow_pipe n Diam HeadLoss Length Nu PipeRough 0 =
        (flow_pipemajor Diam HeadLoss Length Nu PipeRough).map some ∧
      flow_pipe n Diam HeadLoss Length Nu PipeRough 0 =
        flow_pipe m Diam HeadLoss Length Nu PipeRough 0 ∧
      diam_pipe n FlowRate HeadLoss Length Nu PipeRough 0 =
        (diam_pipemajor FlowRate HeadLoss Length Nu PipeRough).map some ∧
      diam_pipe n FlowRate HeadLoss Length Nu PipeRough 0 =
        diam_pipe m FlowRate HeadLoss Length Nu PipeRough 0 := by
  intro n m
  refine ⟨?_, ?_, ?_, ?_⟩ <;> simp [flow_pipe, diam_pipe]

/-- Witness for C1 at a concrete valid input. -/
theorem flow_diam_pipe_zero_minor_closed_form_witness :
    flow_pipe 3 1 1 1 (1/2) (1/2) 0 = (flow_pipemajor 1 1 1 (1/2) (1/2)).map some ∧
    diam_pipe 3 1 1 1 (1/2) (1/2) 0 = (diam_pipemajor 1 1 1 (1/2) (1/2)).map some := by
  have h := flow_diam_pipe_zero_minor_closed_form 1 1 1 (1/2) (1/2) 1
    (by norm_num) (by norm_num) (by norm_num) (by norm_num) (by norm_num)
    (by norm_num) (by norm_num) (by norm_num) 3 5
  exact ⟨h.1, h.2.2.1⟩

/-- Claim C2: with a positive minor-loss coefficient, `flow_pipe`
returns a value exactly when the iteration that starts from the smaller
of the major-loss-only and minor-loss-only flow estimates, and whose
step rescales the given head loss by the friction fraction and inverts
the major-loss formula, reaches a first estimate whose relative change
`|new - old| / (new + old)` from its predecessor is at most 0.01 (a
zero estimate counting as converged, as the stopping rule quoted by the claim
states); the returned value is that first converged estimate. -/
theorem flow_pipe_iterates_to_first_converged
    (Diam HeadLoss Length Nu PipeRough KMinor : ℝ)
    (hD : 0 < Diam) (hH : 0 ≤ HeadLoss) (hL : 0 < Length)
    (hNu0 : 0 < Nu) (hNu1 : Nu < 1) (hr0 : 0 < PipeRough) (hr1 : PipeRough < 1)
    (hK : 0 < KMinor) (q : ℝ) :
    (∃ n, flow_pipe n Diam HeadLoss Length Nu PipeRough KMinor = .ok (some q)) ↔
    ∃ fmaj fmin, flow_pipemajor Diam HeadLoss Length Nu PipeRough = .ok fmaj ∧
      flow_pipeminor Diam HeadLoss KMinor = .ok fmin ∧
      ∃ k,
        iterSeq (flowStep Diam Length Nu PipeRough KMinor HeadLoss)
          (min fmaj fmin) (k + 1) = .ok q ∧
        (∃ a b, iterSeq (flowStep Diam Length Nu PipeRough KMinor HeadLoss)
            (min fmaj fmin) k = .ok a ∧
          iterSeq (flowStep Diam Length Nu PipeRough KMinor HeadLoss)
            (min fmaj fmin) (k + 1) = .ok b ∧
          flowStopSpec b a) ∧
        ∀ j < k, ∃ a b,
          iterSeq (flowStep Diam Length Nu PipeRough KMinor HeadLoss)
            (min fmaj fmin) j = .ok a ∧
          iterSeq (flowStep Diam Length Nu PipeRough KMinor HeadLoss)
            (min fmaj fmin) (j + 1) = .ok b ∧
          flowContSpec b a := by
  have hK0 : KMinor ≠ 0 := ne_of_gt hK
  have hform : ∀ n, flow_pipe n Diam HeadLoss Length Nu PipeRough KMinor = .ok (some q) ↔
      ∃ fmaj, flow_pipemajor Diam HeadLoss Length Nu PipeRough = .ok fmaj ∧
        ∃ fmin, flow_pipeminor Diam HeadLoss KMinor = .ok fmin ∧
          loopGo (flowStep Diam Length Nu PipeRough KMinor HeadLoss) flowErr 0.01 n
            (min fmaj fmin) = .ok (some q) := by
    intro n
    unfold flow_pipe
    rw [if_neg hK0]
    simp only [bind_eq_ok_iff]
  constructor
  · rintro ⟨n, h⟩
    rw [hform n] at h
    obtain ⟨fmaj, h1, fmin, h2, h3⟩ := h
    obtain ⟨k, g1, g2, g3⟩ := loopGo_ok_some h3
    refine ⟨fmaj, fmin, h1, h2, k, g1, (stopP_flowErr_iff _ _ k).mp g2, ?_⟩
    intro j hj
    exact (contP_flowErr_iff _ _ j).mp (g3 j hj)
  · rintro ⟨fmaj, fmin, h1, h2, k, g1, g2, g3⟩
    refine ⟨k + 1, ?_⟩
    rw [hform (k + 1)]
    refine ⟨fmaj, h1, fmin, h2,
      loopGo_of_stop g1 ((stopP_flowErr_iff _ _ k).mpr g2) ?_⟩
    intro j hj
    exact (contP_flowErr_iff _ _ j).mpr (g3 j hj)

/-- Witness for C2 at a concrete valid input. -/
theorem flow_pipe_iterates_to_first_converged_witness :
    (∃ n, flow_pipe n 1 1 1 (1/2) (1/2) 1 = .ok (some 1)) ↔
    ∃ fmaj fmin, flow_pipemajor 1 1 1 (1/2) (1/2) = .ok fmaj ∧
      flow_pipeminor 1 1 1 = .ok fmin ∧
      ∃ k,
        iterSeq (flowStep 1 1 (1/2) (1/2) 1 1) (min fmaj fmin) (k + 1) = .ok 1 ∧
        (∃ a b, iterSeq (flowStep 1 1 (1/2) (1/2) 1 1) (min fmaj fmin) k = .ok a ∧
          iterSeq (flowStep 1 1 (1/2) (1/2) 1 1) (min fmaj fmin) (k + 1) = .ok b ∧
          flowStopSpec b a) ∧
        ∀ j < k, ∃ a b,
          iterSeq (flowStep 1 1 (1/2) (1/2) 1 1) (min fmaj fmin) j = .ok a ∧
          iterSeq (flowStep 1 1 (1/2) (1/2) 1 1) (min fmaj fmin) (j + 1) = .ok b ∧
          flowContSpec b a :=
  flow_pipe_iterates_to_first_converged 1 1 1 (1/2) (1/2) 1 (by norm_num)
    (by norm_num) (by norm_num) (by norm_num) (by norm_num) (by norm_num)
    (by norm_num) (by norm_num) 1

/-- Claim C3: with a positive minor-loss coefficient, `diam_pipe`
starts from the larger of the major-loss-only and minor-loss-only
diameter estimates, each iteration rescales the head loss by the
friction fraction at the current diameter and inverts the major-loss
diameter formula, and the solver returns the first estimate whose
relative change `|new - old| / ((new + old) / 2)` is at most 0.001 — a
tolerance ten times tighter than the 0.01 of the flow solver. -/
theorem diam_pipe_iterates_to_first_converged
    (FlowRate HeadLoss Length Nu PipeRough KMinor : ℝ)
    (hQ : 0 < FlowRate) (hH : 0 ≤ HeadLoss) (hL : 0 < Length)
    (hNu0 : 0 < Nu) (hNu1 : Nu < 1) (hr0 : 0 < PipeRough) (hr1 : PipeRough < 1)
    (hK : 0 < KMinor) (q : ℝ) :
    ((∃ n, diam_pipe n FlowRate HeadLoss Length Nu PipeRough KMinor = .ok (some q)) ↔
    ∃ dmaj dmin, diam_pipemajor FlowRate HeadLoss Length Nu PipeRough = .ok dmaj ∧
      diam_pipeminor FlowRate HeadLoss KMinor = .ok dmin ∧
      ∃ k,
        iterSeq (diamStep FlowRate Length Nu PipeRough KMinor HeadLoss)
          (max dmaj dmin) (k + 1) = .ok q ∧
        (∃ a b, iterSeq (diamStep FlowRate Length Nu PipeRough KMinor HeadLoss)
            (max dmaj dmin) k = .ok a ∧
          iterSeq (diamStep FlowRate Length Nu PipeRough KMinor HeadLoss)
            (max dmaj dmin) (k + 1) = .ok b ∧
          diamStopSpec b a) ∧
        ∀ j < k, ∃ a b,
          iterSeq (diamStep FlowRate Length Nu PipeRough KMinor HeadLoss)
            (max dmaj dmin) j = .ok a ∧
          iterSeq (diamStep FlowRate Length Nu PipeRough KMinor HeadLoss)
            (max dmaj dmin) (j + 1) = .ok b ∧
          diamContSpec b a) ∧
    (0.001 : ℝ) * 10 = 0.01 := by
  have hK0 : KMinor ≠ 0 := ne_of_gt hK
  have hform : ∀ n, diam_pipe n FlowRate HeadLoss Length Nu PipeRough KMinor = .ok (some q) ↔
      ∃ dmaj, diam_pipemajor FlowRate HeadLoss Length Nu PipeRough = .ok dmaj ∧
        ∃ dmin, diam_pipeminor FlowRate HeadLoss KMinor = .ok dmin ∧
          loopGo (diamStep FlowRate Length Nu PipeRough KMinor HeadLoss) diamErr 0.001 n
            (max dmaj dmin) = .ok (some q) := by
    intro n
    unfold diam_pipe
    rw [if_neg hK0]
    simp only [bind_eq_ok_iff]
  refine ⟨?_, by norm_num⟩
  constructor
  · rintro ⟨n, h⟩
    rw [hform n] at h
    obtain ⟨dmaj, h1, dmin, h2, h3⟩ := h
    obtain ⟨k, g1, g2, g3⟩ := loopGo_ok_some h3
    refine ⟨dmaj, dmin, h1, h2, k, g1, (stopP_diamErr_iff _ _ k).mp g2, ?_⟩
    intro j hj
    exact (contP_diamErr_iff _ _ j).mp (g3 j hj)
  · rintro ⟨dmaj, dmin, h1, h2, k, g1, g2, g3⟩
    refine ⟨k + 1, ?_⟩
    rw [hform (k + 1)]
    refine ⟨dmaj, h1, dmin, h2,
      loopGo_of_stop g1 ((stopP_diamErr_iff _ _ k).mpr g2) ?_⟩
    intro j hj
    exact (contP_diamErr_iff _ _ j).mpr (g3 j hj)

/-- Witness for C3 at a concrete valid input. -/
theorem diam_pipe_iterates_to_first_converged_witness :
    ((∃ n, diam_pipe n 1 1 1 (1/2) (1/2) 1 = .ok (some 1)) ↔
    ∃ dmaj dmin, diam_pipemajor 1 1 1 (1/2) (1/2) = .ok dmaj ∧
      diam_pipeminor 1 1 1 = .ok dmin ∧
      ∃ k,
        iterSeq (diamStep 1 1 (1/2) (1/2) 1 1) (max dmaj dmin) (k + 1) = .ok 1 ∧
        (∃ a b, iterSeq (diamStep 1 1 (1/2) (1/2) 1 1) (max dmaj dmin) k = .ok a ∧
          iterSeq (diamStep 1 1 (1/2) (1/2) 1 1) (max dmaj dmin) (k + 1) = .ok b ∧
          diamStopSpec b a) ∧
        ∀ j < k, ∃ a b,
          iterSeq (diamStep 1 1 (1/2) (1/2) 1 1) (max dmaj dmin) j = .ok a ∧
          iterSeq (diamStep 1 1 (1/2) (1/2) 1 1) (max dmaj dmin) (j + 1) = .ok b ∧
          diamContSpec b a) ∧
    (0.001 : ℝ) * 10 = 0.01 :=
  diam_pipe_iterates_to_first_converged 1 1 1 (1/2) (1/2) 1 (by norm_num)
    (by norm_num) (by norm_num) (by norm_num) (by norm_num) (by norm_num)
    (by norm_num) (by norm_num) 1

/-! Evaluation helpers for the closed-form formulas. -/

theorem flow_hagen_ok (Diam HeadLossFric Length Nu : ℝ) (hD : Diam ≠ 0)
    (hL : 0 < Length) (hH : 0 ≤ HeadLossFric) (hNu0 : 0 < Nu) (hNu1 : Nu < 1) :
    flow_hagen Diam HeadLossFric Length Nu =
      .ok (Real.pi * Diam ^ 4 / (128 * Nu) * gravity * HeadLossFric / Length) := by
  unfold flow_hagen
  rw [pand_of_ne _ hD, if_neg (not_le.mpr hL), if_neg (not_lt.mpr hH),
    if_neg (not_not_intro ⟨hNu0, hNu1⟩)]

theorem flow_hagen_zero_head (Diam Length Nu : ℝ) (hD : Diam ≠ 0)
    (hL : 0 < Length) (hNu0 : 0 < Nu) (hNu1 : Nu < 1) :
    flow_hagen Diam 0 Length Nu = .ok 0 := by
  rw [flow_hagen_ok Diam 0 Length Nu hD hL le_rfl hNu0 hNu1]
  congr 1
  ring

theorem flow_transition_ok (Diam Nu : ℝ) (hD : 0 < Diam) (hNu0 : 0 < Nu) (hNu1 : Nu < 1) :
    flow_transition Diam Nu = .ok (Real.pi * Diam * RE_TRANSITION_PIPE * Nu / 4) := by
  unfold flow_transition
  rw [if_neg (not_le.mpr hD), if_neg (not_not_intro ⟨hNu0, hNu1⟩)]

theorem flow_transition_pos (Diam Nu : ℝ) (hD : 0 < Diam) (hNu0 : 0 < Nu) :
    0 < Real.pi * Diam * RE_TRANSITION_PIPE * Nu / 4 := by
  unfold RE_TRANSITION_PIPE
  positivity

theorem flow_swamee_ok (Diam HeadLossFric Length Nu PipeRough : ℝ)
    (hD : 0 < Diam) (hH : 0 < HeadLossFric) (hL : 0 < Length)
    (hNu0 : 0 < Nu) (hNu1 : Nu < 1) (hr0 : 0 < PipeRough) (hr1 : PipeRough < 1) :
    flow_swamee Diam HeadLossFric Length Nu PipeRough =
      .ok ((Real.pi / Real.sqrt 2) * Diam ^ ((5 : ℝ) / 2) *
        Real.sqrt (gravity * HeadLossFric / Length) *
        (-(Real.logb 10 (PipeRough / (3.7 * Diam) + 2.51 * Nu *
          Real.sqrt (Length / (2 * gravity * HeadLossFric * Diam ^ 3)))))) := by
  have hden : 2 * gravity * HeadLossFric * Diam ^ 3 ≠ 0 := by
    unfold gravity
    positivity
  unfold flow_swamee
  rw [pand_of_ne _ (ne_of_gt hD), if_neg (not_le.mpr hL),
    if_neg (not_lt.mpr (le_of_lt hH)), pand_of_ne _ (ne_of_gt hNu0),
    if_neg (not_not_intro ⟨hr0, hr1⟩), pydiv_of_ne _ hden, ok_bind]

theorem flow_pipemajor_isOk (Diam HeadLoss Length Nu PipeRough : ℝ)
    (hD : 0 < Diam) (hH : 0 ≤ HeadLoss) (hL : 0 < Length)
    (hNu0 : 0 < Nu) (hNu1 : Nu < 1) (hr0 : 0 < PipeRough) (hr1 : PipeRough < 1) :
    ∃ v, flow_pipemajor Diam HeadLoss Length Nu PipeRough = .ok v := by
  have hagen := flow_hagen_ok Diam HeadLoss Length Nu (ne_of_gt hD) hL hH hNu0 hNu1
  have htrans := flow_transition_ok Diam Nu hD hNu0 hNu1
  by_cases hlt : Real.pi * Diam ^ 4 / (128 * Nu) * gravity * HeadLoss / Length <
      Real.pi * Diam * RE_TRANSITION_PIPE * Nu / 4
  · have hres : flow_pipemajor Diam HeadLoss Length Nu PipeRough =
        .ok (Real.pi * Diam ^ 4 / (128 * Nu) * gravity * HeadLoss / Length) := by
      unfold flow_pipemajor
      rw [hagen, ok_bind, htrans, ok_bind, if_pos hlt]
    exact ⟨_, hres⟩
  · have hHpos : 0 < HeadLoss := by
      rcases lt_or_eq_of_le hH with h | h
      · exact h
      · exfalso
        apply hlt
        rw [← h]
        calc Real.pi * Diam ^ 4 / (128 * Nu) * gravity * 0 / Length = 0 := by ring
          _ < Real.pi * Diam * RE_TRANSITION_PIPE * Nu / 4 :=
            flow_transition_pos Diam Nu hD hNu0
    have hres : flow_pipemajor Diam HeadLoss Length Nu PipeRough =
        flow_swamee Diam HeadLoss Length Nu PipeRough := by
      unfold flow_pipemajor
      rw [hagen, ok_bind, htrans, ok_bind, if_neg hlt]
    rw [hres, flow_swamee_ok Diam HeadLoss Length Nu PipeRough hD hHpos hL hNu0 hNu1
      hr0 hr1]
    exact ⟨_, rfl⟩

theorem diam_hagen_ok (FlowRate HeadLossFric Length Nu : ℝ)
    (hQ : 0 < FlowRate) (hH : 0 < HeadLossFric) (hL : 0 < Length)
    (hNu0 : 0 < Nu) (hNu1 : Nu < 1) :
    diam_hagen FlowRate HeadLossFric Length Nu =
      .ok ((128 * Nu * FlowRate * Length / (gravity * HeadLossFric * Real.pi)) ^
        ((1 : ℝ) / 4)) := by
  have hden : gravity * HeadLossFric * Real.pi ≠ 0 := by
    unfold gravity
    positivity
  unfold diam_hagen
  rw [pand_of_ne _ (ne_of_gt hQ), if_neg (not_le.mpr hL),
    if_neg (not_lt.mpr (le_of_lt hH)), if_neg (not_not_intro ⟨hNu0, hNu1⟩),
    pydiv_of_ne _ hden, ok_bind]

theorem diam_swamee_ok (FlowRate HeadLossFric Length Nu PipeRough : ℝ)
    (hQ : 0 < FlowRate) (hH : 0 < HeadLossFric) (hL : 0 < Length)
    (hNu0 : 0 < Nu) (hNu1 : Nu < 1) (hr0 : 0 < PipeRough) (hr1 : PipeRough < 1) :
    ∃ v, diam_swamee FlowRate HeadLossFric Length Nu PipeRough = .ok v := by
  have hden1 : gravity * HeadLossFric ≠ 0 := by
    unfold gravity
    positivity
  have hres : diam_swamee FlowRate HeadLossFric Length Nu PipeRough =
      .ok (0.66 * (PipeRough ^ ((1.25 : ℝ)) *
        (Length * FlowRate ^ 2 / (gravity * HeadLossFric)) ^ ((4.75 : ℝ)) +
        Nu * FlowRate ^ ((9.4 : ℝ)) *
        (Length / (gravity * HeadLossFric)) ^ ((5.2 : ℝ))) ^ ((0.04 : ℝ))) := by
    unfold diam_swamee
    rw [pand_of_ne _ (ne_of_gt hQ), if_neg (not_le.mpr hL),
      if_neg (not_lt.mpr (le_of_lt hH)), pand_of_ne _ (ne_of_gt hNu0),
      if_neg (not_not_intro ⟨hr0, hr1⟩), pydiv_of_ne _ hden1, ok_bind,
      pydiv_of_ne _ hden1, ok_bind]
  exact ⟨_, hres⟩

theorem diam_pipemajor_isOk (FlowRate HeadLoss Length Nu PipeRough : ℝ)
    (hQ : 0 < FlowRate) (hH : 0 < HeadLoss) (hL : 0 < Length)
    (hNu0 : 0 < Nu) (hNu1 : Nu < 1) (hr0 : 0 < PipeRough) (hr1 : PipeRough < 1) :
    ∃ v, diam_pipemajor FlowRate HeadLoss Length Nu PipeRough = .ok v := by
  have hagen := diam_hagen_ok FlowRate HeadLoss Length Nu hQ hH hL hNu0 hNu1
  have hg : 0 < gravity := gravity_pos
  have hbase : 0 < 128 * Nu * FlowRate * Length / (gravity * HeadLoss * Real.pi) := by
    positivity
  have hdlpos : 0 < (128 * Nu * FlowRate * Length / (gravity * HeadLoss * Real.pi)) ^
      ((1 : ℝ) / 4) := Real.rpow_pos_of_pos hbase _
  have hre : re_pipe FlowRate
      ((128 * Nu * FlowRate * Length / (gravity * HeadLoss * Real.pi)) ^ ((1 : ℝ) / 4)) Nu =
      .ok (4 * FlowRate / (Real.pi *
        ((128 * Nu * FlowRate * Length / (gravity * HeadLoss * Real.pi)) ^ ((1 : ℝ) / 4)) *
        Nu)) := by
    unfold re_pipe
    rw [if_neg (not_not_intro ⟨hNu0, hNu1⟩), pydiv_of_ne]
    positivity
  by_cases hcmp : 4 * FlowRate / (Real.pi *
      ((128 * Nu * FlowRate * Length / (gravity * HeadLoss * Real.pi)) ^ ((1 : ℝ) / 4)) *
      Nu) ≤ RE_TRANSITION_PIPE
  · have hres : diam_pipemajor FlowRate HeadLoss Length Nu PipeRough =
        .ok ((128 * Nu * FlowRate * Length / (gravity * HeadLoss * Real.pi)) ^
          ((1 : ℝ) / 4)) := by
      unfold diam_pipemajor
      rw [hagen, ok_bind, hre, ok_bind, if_pos hcmp]
    exact ⟨_, hres⟩
  · obtain ⟨v, hv⟩ := diam_swamee_ok FlowRate HeadLoss Length Nu PipeRough hQ hH hL
      hNu0 hNu1 hr0 hr1
    have hres : diam_pipemajor FlowRate HeadLoss Length Nu PipeRough = .ok v := by
      unfold diam_pipemajor
      rw [hagen, ok_bind, hre, ok_bind, if_neg hcmp, hv]
    exact ⟨v, hres⟩

/-- Propagation of a major-formula error through `flow_pipe`, for both
branches of the minor-loss test. -/
theorem flow_pipe_major_error {Diam HeadLoss Length Nu PipeRough : ℝ} {e : PyErr}
    (h : flow_pipemajor Diam HeadLoss Length Nu PipeRough = .error e) :
    ∀ (KMinor : ℝ) (n : ℕ), flow_pipe n Diam HeadLoss Length Nu PipeRough KMinor =
      .error e := by
  intro KMinor n
  unfold flow_pipe
  by_cases hK : KMinor = 0
  · rw [if_pos hK, h]
    rfl
  · rw [if_neg hK, h, error_bind]

/-- Propagation of a major-formula error through `diam_pipe`. -/
theorem diam_pipe_major_error {FlowRate HeadLoss Length Nu PipeRough : ℝ} {e : PyErr}
    (h : diam_pipemajor FlowRate HeadLoss Length Nu PipeRough = .error e) :
    ∀ (KMinor : ℝ) (n : ℕ), diam_pipe n FlowRate HeadLoss Length Nu PipeRough KMinor =
      .error e := by
  intro KMinor n
  unfold diam_pipe
  by_cases hK : KMinor = 0
  · rw [if_pos hK, h]
    rfl
  · rw [if_neg hK, h, error_bind]

theorem flow_pipemajor_error_of_hagen {Diam HeadLoss Length Nu PipeRough : ℝ} {e : PyErr}
    (h : flow_hagen Diam HeadLoss Length Nu = .error e) :
    flow_pipemajor Diam HeadLoss Length Nu PipeRough = .error e := by
  unfold flow_pipemajor
  rw [h, error_bind]

theorem diam_pipemajor_error_of_hagen {FlowRate HeadLoss Length Nu PipeRough : ℝ} {e : PyErr}
    (h : diam_hagen FlowRate HeadLoss Length Nu = .error e) :
    diam_pipemajor FlowRate HeadLoss Length Nu PipeRough = .error e := by
  unfold diam_pipemajor
  rw [h, error_bind]

/-- The zero-head-loss division-by-zero path of `flow_pipe`, for any
non-zero minor-loss coefficient. -/
theorem flow_pipe_zero_head_zd (Diam Length Nu PipeRough KMinor : ℝ)
    (hD : 0 < Diam) (hL : 0 < Length) (hNu0 : 0 < Nu) (hNu1 : Nu < 1)
    (hK : KMinor ≠ 0) :
    ∀ n, flow_pipe (n + 1) Diam 0 Length Nu PipeRough KMinor = .error .zeroDivision := by
  have hmajor : flow_pipemajor Diam 0 Length Nu PipeRough = .ok 0 := by
    unfold flow_pipemajor
    rw [flow_hagen_zero_head Diam Length Nu (ne_of_gt hD) hL hNu0 hNu1, ok_bind,
      flow_transition_ok Diam Nu hD hNu0 hNu1, ok_bind,
      if_pos (flow_transition_pos Diam Nu hD hNu0)]
  have hminor : flow_pipeminor Diam 0 KMinor = .ok 0 := by
    unfold flow_pipeminor
    rw [pand_self_zero, if_neg (not_not_intro (le_refl (0 : ℝ)))]
    unfold area_circle
    rw [if_neg (not_le.mpr hD), ok_bind, pydiv_of_ne _ hK, ok_bind]
    have hz : 2 * gravity * 0 / KMinor = 0 := by ring
    rw [hz, Real.sqrt_zero, mul_zero]
  have hfric : fric 0 Diam Nu PipeRough = .error .zeroDivision := by
    unfold fric re_pipe
    rw [if_neg (not_not_intro ⟨hNu0, hNu1⟩),
      pydiv_of_ne _ (by positivity : Real.pi * Diam * Nu ≠ 0),
      show (4 : ℝ) * 0 / (Real.pi * Diam * Nu) = 0 by ring, ok_bind,
      if_neg (by norm_num [RE_TRANSITION_PIPE] : ¬((0 : ℝ) ≥ RE_TRANSITION_PIPE)),
      pydiv_denom_zero]
  have hstep : flowStep Diam Length Nu PipeRough KMinor 0 0 = .error .zeroDivision := by
    unfold flowStep headloss_fric
    rw [if_neg (not_le.mpr hL), hfric, error_bind, error_bind]
  intro n
  unfold flow_pipe
  rw [if_neg hK, hmajor, ok_bind, hminor, ok_bind, min_self, loopGo_succ, hstep,
    error_bind]

/-- Counterexample to claim C5: roughness far outside `(0, 1)` is
accepted without any error when the flow stays laminar.  Here
`flow_pipe` with roughness `5` (and zero minor-loss coefficient, zero
head loss, otherwise valid inputs) returns the Hagen flow `0` instead
of raising the invalid-input `ValueError`: the roughness check lives
only on the turbulent branch. -/
theorem flow_pipe_laminar_skips_roughness_check :
    flow_pipe 1 1 0 1 (1/2) 5 0 = .ok (some 0) := by
  unfold flow_pipe
  rw [if_pos rfl]
  have hmajor : flow_pipemajor 1 0 1 (1/2) 5 = .ok 0 := by
    unfold flow_pipemajor
    rw [flow_hagen_zero_head 1 1 (1/2) (by norm_num) (by norm_num) (by norm_num)
      (by norm_num), ok_bind,
      flow_transition_ok 1 (1/2) (by norm_num) (by norm_num) (by norm_num), ok_bind,
      if_pos (flow_transition_pos 1 (1/2) (by norm_num) (by norm_num))]
  rw [hmajor]
  rfl

/-- Amended claim C5: each of — non-positive diameter (flow solver),
zero flow rate (diameter solver), non-positive length, negative head
loss, viscosity outside `(0, 1)`, and a negative minor-loss coefficient
with positive head loss — raises the invalid-input `ValueError` before
any iteration, the remaining inputs being in range.  Roughness outside
`(0, 1)` is only checked on the turbulent branch (counterexample), and
a negative minor-loss coefficient combined with zero head loss leads to
a division by zero instead of the `ValueError`. -/
theorem invalid_inputs_raise_valueError :
    (∀ (Diam HeadLoss Length Nu PipeRough KMinor : ℝ) (n : ℕ),
      Diam ≤ 0 → 0 < Length → 0 ≤ HeadLoss → 0 < Nu → Nu < 1 →
      flow_pipe n Diam HeadLoss Length Nu PipeRough KMinor = .error .valueError) ∧
    (∀ (Diam HeadLoss Length Nu PipeRough KMinor : ℝ) (n : ℕ), Length ≤ 0 →
      flow_pipe n Diam HeadLoss Length Nu PipeRough KMinor = .error .valueError) ∧
    (∀ (Diam HeadLoss Length Nu PipeRough KMinor : ℝ) (n : ℕ),
      0 < Diam → 0 < Length → HeadLoss < 0 →
      flow_pipe n Diam HeadLoss Length Nu PipeRough KMinor = .error .valueError) ∧
    (∀ (Diam HeadLoss Length Nu PipeRough KMinor : ℝ) (n : ℕ),
      0 < Diam → 0 < Length → 0 ≤ HeadLoss → ¬(0 < Nu ∧ Nu < 1) →
      flow_pipe n Diam HeadLoss Length Nu PipeRough KMinor = .error .valueError) ∧
    (∀ (Diam HeadLoss Length Nu PipeRough KMinor : ℝ) (n : ℕ),
      0 < Diam → 0 < HeadLoss → 0 < Length → 0 < Nu → Nu < 1 →
      0 < PipeRough → PipeRough < 1 → KMinor < 0 →
      flow_pipe n Diam HeadLoss Length Nu PipeRough KMinor = .error .valueError) ∧
    (∀ (Diam Length Nu PipeRough KMinor : ℝ) (n : ℕ),
      0 < Diam → 0 < Length → 0 < Nu → Nu < 1 → KMinor < 0 →
      flow_pipe (n + 1) Diam 0 Length Nu PipeRough KMinor = .error .zeroDivision) ∧
    (∀ (FlowRate HeadLoss Length Nu PipeRough KMinor : ℝ) (n : ℕ), FlowRate = 0 →
      diam_pipe n FlowRate HeadLoss Length Nu PipeRough KMinor = .error .valueError) ∧
    (∀ (FlowRate HeadLoss Length Nu PipeRough KMinor : ℝ) (n : ℕ), Length ≤ 0 →
      diam_pipe n FlowRate HeadLoss Length Nu PipeRough KMinor = .error .valueError) ∧
    (∀ (FlowRate HeadLoss Length Nu PipeRough KMinor : ℝ) (n : ℕ),
      0 < FlowRate → 0 < Length → HeadLoss < 0 →
      diam_pipe n FlowRate HeadLoss Length Nu PipeRough KMinor = .error .valueError) ∧
    (∀ (FlowRate HeadLoss Length Nu PipeRough KMinor : ℝ) (n : ℕ),
      0 < FlowRate → 0 < Length → 0 ≤ HeadLoss → ¬(0 < Nu ∧ Nu < 1) →
      diam_pipe n FlowRate HeadLoss Length Nu PipeRough KMinor = .error .valueError) ∧
    (∀ (FlowRate HeadLoss Length Nu PipeRough KMinor : ℝ) (n : ℕ),
      0 < FlowRate → 0 < HeadLoss → 0 < Length → 0 < Nu → Nu < 1 →
      0 < PipeRough → PipeRough < 1 → KMinor < 0 →
      diam_pipe n FlowRate HeadLoss Length Nu PipeRough KMinor = .error .valueError) := by
  have hagen_err_len : ∀ Diam HeadLoss Length Nu : ℝ, Length ≤ 0 →
      flow_hagen Diam HeadLoss Length Nu = .error .valueError := by
    intro Diam HeadLoss Length Nu hL
    unfold flow_hagen
    rw [if_pos]
    unfold pand
    split
    · exact le_of_eq (by assumption)
    · exact hL
  have dhagen_err_len : ∀ FlowRate HeadLoss Length Nu : ℝ, Length ≤ 0 →
      diam_hagen FlowRate HeadLoss Length Nu = .error .valueError := by
    intro FlowRate HeadLoss Length Nu hL
    unfold diam_hagen
    rw [if_pos]
    unfold pand
    split
    · exact le_of_eq (by assumption)
    · exact hL
  refine ⟨?_, ?_, ?_, ?_, ?_, ?_, ?_, ?_, ?_, ?_, ?_⟩
  · -- flow solver, non-positive diameter
    intro Diam HeadLoss Length Nu PipeRough KMinor n hD hL hH hNu0 hNu1
    rcases eq_or_lt_of_le hD with h0 | hlt
    · refine flow_pipe_major_error (flow_pipemajor_error_of_hagen ?_) KMinor n
      unfold flow_hagen
      rw [if_pos]
      rw [h0, pand_self_zero]
    · refine flow_pipe_major_error ?_ KMinor n
      unfold flow_pipemajor
      rw [flow_hagen_ok Diam HeadLoss Length Nu (ne_of_lt hlt) hL hH hNu0 hNu1, ok_bind]
      unfold flow_transition
      rw [if_pos (le_of_lt hlt), error_bind]
  · -- flow solver, non-positive length
    intro Diam HeadLoss Length Nu PipeRough KMinor n hL
    exact flow_pipe_major_error
      (flow_pipemajor_error_of_hagen (hagen_err_len Diam HeadLoss Length Nu hL)) KMinor n
  · -- flow solver, negative head loss
    intro Diam HeadLoss Length Nu PipeRough KMinor n hD hL hH
    refine flow_pipe_major_error (flow_pipemajor_error_of_hagen ?_) KMinor n
    unfold flow_hagen
    rw [pand_of_ne _ (ne_of_gt hD), if_neg (not_le.mpr hL), if_pos hH]
  · -- flow solver, viscosity out of range
    intro Diam HeadLoss Length Nu PipeRough KMinor n hD hL hH hNu
    refine flow_pipe_major_error (flow_pipemajor_error_of_hagen ?_) KMinor n
    unfold flow_hagen
    rw [pand_of_ne _ (ne_of_gt hD), if_neg (not_le.mpr hL), if_neg (not_lt.mpr hH),
      if_pos hNu]
  · -- flow solver, negative minor-loss coefficient with positive head loss
    intro Diam HeadLoss Length Nu PipeRough KMinor n hD hH hL hNu0 hNu1 hr0 hr1 hK
    obtain ⟨v, hv⟩ := flow_pipemajor_isOk Diam HeadLoss Length Nu PipeRough hD
      (le_of_lt hH) hL hNu0 hNu1 hr0 hr1
    have hminor : flow_pipeminor Diam HeadLoss KMinor = .error .valueError := by
      unfold flow_pipeminor
      rw [pand_of_ne _ (ne_of_gt hH), if_pos (not_le.mpr hK)]
    unfold flow_pipe
    rw [if_neg (ne_of_lt hK), hv, ok_bind, hminor, error_bind]
  · -- flow solver, negative minor-loss coefficient with zero head loss
    intro Diam Length Nu PipeRough KMinor n hD hL hNu0 hNu1 hK
    exact flow_pipe_zero_head_zd Diam Length Nu PipeRough KMinor hD hL hNu0 hNu1
      (ne_of_lt hK) n
  · -- diameter solver, zero flow
    intro FlowRate HeadLoss Length Nu PipeRough KMinor n hQ
    refine diam_pipe_major_error (diam_pipemajor_error_of_hagen ?_) KMinor n
    unfold diam_hagen
    rw [if_pos]
    rw [hQ, pand_self_zero]
  · -- diameter solver, non-positive length
    intro FlowRate HeadLoss Length Nu PipeRough KMinor n hL
    exact diam_pipe_major_error
      (diam_pipemajor_error_of_hagen (dhagen_err_len FlowRate HeadLoss Length Nu hL))
      KMinor n
  · -- diameter solver, negative head loss
    intro FlowRate HeadLoss Length Nu PipeRough KMinor n hQ hL hH
    refine diam_pipe_major_error (diam_pipemajor_error_of_hagen ?_) KMinor n
    unfold diam_hagen
    rw [pand_of_ne _ (ne_of_gt hQ), if_neg (not_le.mpr hL), if_pos hH]
  · -- diameter solver, viscosity out of range
    intro FlowRate HeadLoss Length Nu PipeRough KMinor n hQ hL hH hNu
    refine diam_pipe_major_error (diam_pipemajor_error_of_hagen ?_) KMinor n
    unfold diam_hagen
    rw [pand_of_ne _ (ne_of_gt hQ), if_neg (not_le.mpr hL), if_neg (not_lt.mpr hH),
      if_pos hNu]
  · -- diameter solver, negative minor-loss coefficient with positive head loss
    intro FlowRate HeadLoss Length Nu PipeRough KMinor n hQ hH hL hNu0 hNu1 hr0 hr1 hK
    obtain ⟨v, hv⟩ := diam_pipemajor_isOk FlowRate HeadLoss Length Nu PipeRough hQ hH hL
      hNu0 hNu1 hr0 hr1
    have hminor : diam_pipeminor FlowRate HeadLoss KMinor = .error .valueError := by
      unfold diam_pipeminor
      rw [if_neg (not_le.mpr hQ), pand_of_ne _ (ne_of_gt hH), if_pos (not_le.mpr hK)]
    unfold diam_pipe
    rw [if_neg (ne_of_lt hK), hv, ok_bind, hminor, error_bind]

/-- Witness for the amended claim C5 at concrete inputs. -/
theorem invalid_inputs_raise_valueError_witness :
    flow_pipe 2 0 1 1 (1/2) (1/2) 1 = .error .valueError ∧
    flow_pipe 2 1 (-1) 1 (1/2) (1/2) 1 = .error .valueError ∧
    flow_pipe 2 1 1 1 3 (1/2) 1 = .error .valueError ∧
    flow_pipe 2 1 1 1 (1/2) (1/2) (-1) = .error .valueError ∧
    flow_pipe 2 1 0 1 (1/2) (1/2) (-1) = .error .zeroDivision ∧
    diam_pipe 2 0 1 1 (1/2) (1/2) 1 = .error .valueError ∧
    diam_pipe 2 1 1 1 (1/2) (1/2) (-1) = .error .valueError := by
  have h := invalid_inputs_raise_valueError
  refine ⟨h.1 0 1 1 (1/2) (1/2) 1 2 (by norm_num) (by norm_num) (by norm_num)
      (by norm_num) (by norm_num),
    h.2.2.1 1 (-1) 1 (1/2) (1/2) 1 2 (by norm_num) (by norm_num) (by norm_num),
    h.2.2.2.1 1 1 1 3 (1/2) 1 2 (by norm_num) (by norm_num) (by norm_num)
      (by norm_num),
    h.2.2.2.2.1 1 1 1 (1/2) (1/2) (-1) 2 (by norm_num) (by norm_num) (by norm_num)
      (by norm_num) (by norm_num) (by norm_num) (by norm_num) (by norm_num),
    h.2.2.2.2.2.1 1 1 (1/2) (1/2) (-1) 1 (by norm_num) (by norm_num) (by norm_num)
      (by norm_num) (by norm_num),
    h.2.2.2.2.2.2.1 0 1 1 (1/2) (1/2) 1 2 rfl,
    h.2.2.2.2.2.2.2.2.2.2 1 1 1 (1/2) (1/2) (-1) 2 (by norm_num) (by norm_num)
      (by norm_num) (by norm_num) (by norm_num) (by norm_num) (by norm_num)
      (by norm_num)⟩

/-- Claim C7: `flow_pipemajor` returns the Hagen flow exactly when that
flow is below the transition flow — equivalently, when the Reynolds
number it implies is below 2100 — and otherwise returns the
Swamee–Jain flow; `diam_pipemajor` returns the Hagen diameter exactly
when the Reynolds number implied by that diameter is at or below 2100,
and otherwise returns the Swamee–Jain diameter. -/
theorem pipemajor_laminar_turbulent_dispatch
    (Diam HeadLoss Length Nu PipeRough FlowRate : ℝ)
    (hD : 0 < Diam) (hH : 0 < HeadLoss) (hL : 0 < Length)
    (hNu0 : 0 < Nu) (hNu1 : Nu < 1) (hr0 : 0 < PipeRough) (hr1 : PipeRough < 1)
    (hQ : 0 < FlowRate) :
    (∃ fh t, flow_hagen Diam HeadLoss Length Nu = .ok fh ∧
      flow_transition Diam Nu = .ok t ∧
      (∃ rH, re_pipe fh Diam Nu = .ok rH ∧ (rH < RE_TRANSITION_PIPE ↔ fh < t)) ∧
      (fh < t → flow_pipemajor Diam HeadLoss Length Nu PipeRough = .ok fh) ∧
      (¬ fh < t → flow_pipemajor Diam HeadLoss Length Nu PipeRough =
        flow_swamee Diam HeadLoss Length Nu PipeRough)) ∧
    (∃ dl rD, diam_hagen FlowRate HeadLoss Length Nu = .ok dl ∧
      re_pipe FlowRate dl Nu = .ok rD ∧
      (rD ≤ RE_TRANSITION_PIPE → diam_pipemajor FlowRate HeadLoss Length Nu PipeRough =
        .ok dl) ∧
      (¬ rD ≤ RE_TRANSITION_PIPE → diam_pipemajor FlowRate HeadLoss Length Nu PipeRough =
        diam_swamee FlowRate HeadLoss Length Nu PipeRough)) := by
  constructor
  · have hagen := flow_hagen_ok Diam HeadLoss Length Nu (ne_of_gt hD) hL
      (le_of_lt hH) hNu0 hNu1
    have htrans := flow_transition_ok Diam Nu hD hNu0 hNu1
    have hden : 0 < Real.pi * Diam * Nu := by positivity
    have hre : re_pipe (Real.pi * Diam ^ 4 / (128 * Nu) * gravity * HeadLoss / Length)
        Diam Nu = .ok (4 * (Real.pi * Diam ^ 4 / (128 * Nu) * gravity * HeadLoss /
          Length) / (Real.pi * Diam * Nu)) := by
      unfold re_pipe
      rw [if_neg (not_not_intro ⟨hNu0, hNu1⟩), pydiv_of_ne _ (ne_of_gt hden)]
    have hiff : 4 * (Real.pi * Diam ^ 4 / (128 * Nu) * gravity * HeadLoss / Length) /
        (Real.pi * Diam * Nu) < RE_TRANSITION_PIPE ↔
        Real.pi * Diam ^ 4 / (128 * Nu) * gravity * HeadLoss / Length <
          Real.pi * Diam * RE_TRANSITION_PIPE * Nu / 4 := by
      unfold RE_TRANSITION_PIPE
      rw [div_lt_iff hden]
      constructor
      · intro h
        nlinarith
      · intro h
        nlinarith
    refine ⟨_, _, hagen, htrans, ⟨_, hre, hiff⟩, ?_, ?_⟩
    · intro hlt
      unfold flow_pipemajor
      rw [hagen, ok_bind, htrans, ok_bind, if_pos hlt]
    · intro hlt
      unfold flow_pipemajor
      rw [hagen, ok_bind, htrans, ok_bind, if_neg hlt]
  · have hagen := diam_hagen_ok FlowRate HeadLoss Length Nu hQ hH hL hNu0 hNu1
    have hbase : 0 < 128 * Nu * FlowRate * Length / (gravity * HeadLoss * Real.pi) := by
      unfold gravity
      positivity
    have hdl : 0 < (128 * Nu * FlowRate * Length / (gravity * HeadLoss * Real.pi)) ^
        ((1 : ℝ) / 4) := Real.rpow_pos_of_pos hbase _
    have hre : re_pipe FlowRate
        ((128 * Nu * FlowRate * Length / (gravity * HeadLoss * Real.pi)) ^ ((1 : ℝ) / 4))
        Nu = .ok (4 * FlowRate / (Real.pi *
          ((128 * Nu * FlowRate * Length / (gravity * HeadLoss * Real.pi)) ^
            ((1 : ℝ) / 4)) * Nu)) := by
      unfold re_pipe
      rw [if_neg (not_not_intro ⟨hNu0, hNu1⟩), pydiv_of_ne]
      positivity
    refine ⟨_, _, hagen, hre, ?_, ?_⟩
    · intro hcmp
      unfold diam_pipemajor
      rw [hagen, ok_bind, hre, ok_bind, if_pos hcmp]
    · intro hcmp
      unfold diam_pipemajor
      rw [hagen, ok_bind, hre, ok_bind, if_neg hcmp]

/-- Witness for C7 at a concrete valid input. -/
theorem pipemajor_laminar_turbulent_dispatch_witness :
    (∃ fh t, flow_hagen 1 1 1 (1/2) = .ok fh ∧
      flow_transition 1 (1/2) = .ok t ∧
      (∃ rH, re_pipe fh 1 (1/2) = .ok rH ∧ (rH < RE_TRANSITION_PIPE ↔ fh < t)) ∧
      (fh < t → flow_pipemajor 1 1 1 (1/2) (1/2) = .ok fh) ∧
      (¬ fh < t → flow_pipemajor 1 1 1 (1/2) (1/2) =
        flow_swamee 1 1 1 (1/2) (1/2))) ∧
    (∃ dl rD, diam_hagen 1 1 1 (1/2) = .ok dl ∧
      re_pipe 1 dl (1/2) = .ok rD ∧
      (rD ≤ RE_TRANSITION_PIPE → diam_pipemajor 1 1 1 (1/2) (1/2) = .ok dl) ∧
      (¬ rD ≤ RE_TRANSITION_PIPE → diam_pipemajor 1 1 1 (1/2) (1/2) =
        diam_swamee 1 1 1 (1/2) (1/2))) :=
  pipemajor_laminar_turbulent_dispatch 1 1 1 (1/2) (1/2) 1 (by norm_num)
    (by norm_num) (by norm_num) (by norm_num) (by norm_num) (by norm_num)
    (by norm_num) (by norm_num)

/-- Counterexample to claim C4: the relative-error computation of the
diameter solver does not short-circuit to zero at a zero new estimate.  At
new estimate `0` with predecessor `1` it evaluates
`|0 - 1| / ((0 + 1) / 2) = 2`, far above every tolerance, instead of
the claimed converged `0`. -/
theorem diamErr_zero_estimate_not_converged :
    diamErr 0 1 = .ok 2 ∧ diamErr 0 1 ≠ .ok 0 := by
  have h : diamErr 0 1 = .ok 2 := by
    unfold diamErr
    rw [pydiv_of_ne _ (by norm_num : ((0 : ℝ) + 1) / 2 ≠ 0)]
    congr 1
    norm_num
  refine ⟨h, ?_⟩
  rw [h]
  intro hc
  have h2 : (2 : ℝ) = 0 := by injection hc
  norm_num at h2

/-- Amended claim C4: only the flow solver guards the zero estimate —
`flowErr` short-circuits to error `0` at a zero new estimate, so its
loop returns that zero estimate at once; the diameter solver has no
such guard, and its relative error at a zero new estimate with a
positive predecessor is `2` (not converged). -/
theorem zero_estimate_guard_only_in_flow_solver :
    (∀ old : ℝ, flowErr 0 old = .ok 0) ∧
    (∀ (step : ℝ → Res) (old : ℝ) (n : ℕ), step old = .ok 0 →
      loopGo step flowErr 0.01 (n + 1) old = .ok (some 0)) ∧
    (∀ old : ℝ, 0 < old → diamErr 0 old = .ok 2) := by
  have h1 : ∀ old : ℝ, flowErr 0 old = .ok 0 := fun old => if_pos rfl
  refine ⟨h1, ?_, ?_⟩
  · intro step old n hs
    rw [loopGo_succ, hs, ok_bind, h1 old, ok_bind, if_pos (by norm_num)]
  · intro old hold
    have hne : (0 + old) / 2 ≠ 0 := by
      rw [zero_add]
      positivity
    unfold diamErr
    rw [pydiv_of_ne _ hne]
    congr 1
    rw [abs_of_nonpos (by linarith)]
    field_simp

/-- Witness for the amended claim C4 at concrete inputs. -/
theorem zero_estimate_guard_only_in_flow_solver_witness :
    flowErr 0 5 = .ok 0 ∧
    loopGo (fun _ => (.ok 0 : Res)) flowErr 0.01 1 5 = .ok (some 0) ∧
    diamErr 0 1 = .ok 2 := by
  have h := zero_estimate_guard_only_in_flow_solver
  exact ⟨h.1 5, h.2.1 (fun _ => (.ok 0 : Res)) 5 0 rfl, h.2.2 1 (by norm_num)⟩

/-- Counterexample to claim C6: with its iteration budget exhausted at
a state that has not met the tolerance, each solver loop is simply
still iterating (`ok none`); it raises no non-convergence failure, so
the code enforces no iteration bound with a failure report. -/
theorem loops_exhaust_budget_without_failure_report :
    loopGo (flowStep 1 1 (1/2) (1/2) 1 1) flowErr 0.01 0 (1/2) = .ok none ∧
    loopGo (diamStep 1 1 (1/2) (1/2) 1 1) diamErr 0.001 0 (1/2) = .ok none :=
  ⟨rfl, rfl⟩

/-- Amended claim C6: neither solver bounds its iteration count or
reports a non-convergence failure.  An exhausted budget leaves both
loops still running without any failure value, and whenever a loop has
returned a value it returns the same value with any larger budget — the
iteration is limited only by the convergence test itself. -/
theorem solvers_have_no_iteration_bound :
    (∀ Diam Length Nu PipeRough KMinor HeadLoss x : ℝ,
      loopGo (flowStep Diam Length Nu PipeRough KMinor HeadLoss) flowErr 0.01 0 x =
        .ok none) ∧
    (∀ FlowRate Length Nu PipeRough KMinor HeadLoss x : ℝ,
      loopGo (diamStep FlowRate Length Nu PipeRough KMinor HeadLoss) diamErr 0.001 0 x =
        .ok none) ∧
    (∀ (step : ℝ → Res) (errf : ℝ → ℝ → Res) (tol : ℝ) (n : ℕ) (x q : ℝ),
      loopGo step errf tol n x = .ok (some q) →
        loopGo step errf tol (n + 1) x = .ok (some q)) :=
  ⟨fun _ _ _ _ _ _ _ => rfl, fun _ _ _ _ _ _ _ => rfl,
    fun _ _ _ _ _ _ h => loopGo_mono h⟩

/-- Witness for the amended claim C6: a loop that returned with budget
one returns the same value with budget two. -/
theorem solvers_have_no_iteration_bound_witness :
    loopGo (fun _ => (.ok 0 : Res)) flowErr 0.01 2 5 = .ok (some 0) := by
  have h1 : loopGo (fun _ => (.ok 0 : Res)) flowErr 0.01 1 5 = .ok (some 0) := by
    rw [loopGo_succ, ok_bind]
    unfold flowErr
    rw [if_pos rfl, ok_bind, if_pos (by norm_num)]
  exact solvers_have_no_iteration_bound.2.2 (fun _ => (.ok 0 : Res)) flowErr 0.01 1 5 0 h1

/-- Claim C9: the total-head-loss wrapper fails with the
unbound-variable error when all six arguments are scalars, and with
exactly one list argument it returns the list of per-element
`headloss_fric + headloss_exp` values (one equation per argument
position). -/
theorem headloss_list_behaviour :
    (∀ q d l nu r k : ℝ,
      headloss (.scalar q) (.scalar d) (.scalar l) (.scalar nu) (.scalar r)
        (.scalar k) = .error .unboundLocal) ∧
    (∀ (qs : List ℝ) (d l nu r k : ℝ),
      headloss (.plist qs) (.scalar d) (.scalar l) (.scalar nu) (.scalar r)
        (.scalar k) = qs.mapM fun q => headlossOne q d l nu r k) ∧
    (∀ (q : ℝ) (ds : List ℝ) (l nu r k : ℝ),
      headloss (.scalar q) (.plist ds) (.scalar l) (.scalar nu) (.scalar r)
        (.scalar k) = ds.mapM fun d => headlossOne q d l nu r k) ∧
    (∀ (q d : ℝ) (ls : List ℝ) (nu r k : ℝ),
      headloss (.scalar q) (.scalar d) (.plist ls) (.scalar nu) (.scalar r)
        (.scalar k) = ls.mapM fun l => headlossOne q d l nu r k) ∧
    (∀ (q d l : ℝ) (nus : List ℝ) (r k : ℝ),
      headloss (.scalar q) (.scalar d) (.scalar l) (.plist nus) (.scalar r)
        (.scalar k) = nus.mapM fun nu => headlossOne q d l nu r k) ∧
    (∀ (q d l nu : ℝ) (rs : List ℝ) (k : ℝ),
      headloss (.scalar q) (.scalar d) (.scalar l) (.scalar nu) (.plist rs)
        (.scalar k) = rs.mapM fun r => headlossOne q d l nu r k) ∧
    (∀ (q d l nu r : ℝ) (ks : List ℝ),
      headloss (.scalar q) (.scalar d) (.scalar l) (.scalar nu) (.scalar r)
        (.plist ks) = ks.mapM fun k => headlossOne q d l nu r k) := by
  refine ⟨fun q d l nu r k => rfl, ?_, ?_, ?_, ?_, ?_, ?_⟩ <;>
    intros <;> simp only [headloss, asScalar, ok_bind]

/-- Claim C10: at total head loss exactly zero and a positive
minor-loss coefficient, the initial flow estimate is zero and the first
iteration evaluates the friction factor at zero flow rate, dividing 64
by a zero Reynolds number, so `flow_pipe` fails with a division by zero
rather than returning zero flow. -/
theorem flow_pipe_zero_headloss_zero_division
    (Diam Length Nu PipeRough KMinor : ℝ)
    (hD : 0 < Diam) (hL : 0 < Length) (hNu0 : 0 < Nu) (hNu1 : Nu < 1)
    (hr0 : 0 < PipeRough) (hr1 : PipeRough < 1) (hK : 0 < KMinor) :
    flow_pipemajor Diam 0 Length Nu PipeRough = .ok 0 ∧
    flow_pipeminor Diam 0 KMinor = .ok 0 ∧
    re_pipe 0 Diam Nu = .ok 0 ∧
    fric 0 Diam Nu PipeRough = .error .zeroDivision ∧
    ∀ n, flow_pipe (n + 1) Diam 0 Length Nu PipeRough KMinor = .error .zeroDivision := by
  have hNu : ¬¬(0 < Nu ∧ Nu < 1) := not_not_intro ⟨hNu0, hNu1⟩
  have hagen0 : flow_hagen Diam 0 Length Nu = .ok 0 := by
    unfold flow_hagen
    rw [pand_of_ne _ (ne_of_gt hD), if_neg (not_le.mpr hL),
      if_neg (by norm_num : ¬((0 : ℝ) < 0)), if_neg hNu]
    congr 1
    ring
  have htrans : flow_transition Diam Nu =
      .ok (Real.pi * Diam * RE_TRANSITION_PIPE * Nu / 4) := by
    unfold flow_transition
    rw [if_neg (not_le.mpr hD), if_neg hNu]
  have htpos : 0 < Real.pi * Diam * RE_TRANSITION_PIPE * Nu / 4 := by
    unfold RE_TRANSITION_PIPE
    positivity
  have hmajor : flow_pipemajor Diam 0 Length Nu PipeRough = .ok 0 := by
    unfold flow_pipemajor
    rw [hagen0, ok_bind, htrans, ok_bind, if_pos htpos]
  have hminor : flow_pipeminor Diam 0 KMinor = .ok 0 := by
    unfold flow_pipeminor
    rw [pand_self_zero, if_neg (not_not_intro (le_refl (0 : ℝ)))]
    unfold area_circle
    rw [if_neg (not_le.mpr hD), ok_bind, pydiv_of_ne _ (ne_of_gt hK), ok_bind]
    have hz : 2 * gravity * 0 / KMinor = 0 := by ring
    rw [hz, Real.sqrt_zero, mul_zero]
  have hre0 : re_pipe 0 Diam Nu = .ok 0 := by
    unfold re_pipe
    rw [if_neg hNu, pydiv_of_ne _ (by positivity : Real.pi * Diam * Nu ≠ 0)]
    congr 1
    ring
  have hfric : fric 0 Diam Nu PipeRough = .error .zeroDivision := by
    unfold fric
    rw [hre0, ok_bind, if_neg (by norm_num [RE_TRANSITION_PIPE] :
      ¬((0 : ℝ) ≥ RE_TRANSITION_PIPE)), pydiv_denom_zero]
  have hstep : flowStep Diam Length Nu PipeRough KMinor 0 0 = .error .zeroDivision := by
    unfold flowStep headloss_fric
    rw [if_neg (not_le.mpr hL), hfric, error_bind, error_bind]
  refine ⟨hmajor, hminor, hre0, hfric, ?_⟩
  intro n
  unfold flow_pipe
  rw [if_neg (ne_of_gt hK), hmajor, ok_bind, hminor, ok_bind, min_self,
    loopGo_succ, hstep, error_bind]

/-- Witness for C10 at a concrete valid input. -/
theorem flow_pipe_zero_headloss_zero_division_witness :
    flow_pipe 1 1 0 1 (1/2) (1/2) 1 = .error .zeroDivision := by
  have h := flow_pipe_zero_headloss_zero_division 1 1 (1/2) (1/2) 1
    (by norm_num) (by norm_num) (by norm_num) (by norm_num) (by norm_num)
    (by norm_num) (by norm_num)
  exact h.2.2.2.2 0

/-! Helpers for settling the round-trip claim. -/

theorem roundTripHead_pos : 0 < roundTripHead := by
  have hg : 0 < gravity := gravity_pos
  have hπ : 0 < Real.pi := Real.pi_pos
  unfold roundTripHead
  positivity

theorem two_le_g_roundTripHead : 2 ≤ gravity * roundTripHead / 1 := by
  have hπ : 0 < Real.pi := Real.pi_pos
  have hg : gravity ≠ 0 := ne_of_gt gravity_pos
  have heq : gravity * roundTripHead / 1 =
      6400000000 / Real.pi + 800000000000000 / Real.pi ^ 2 := by
    unfold roundTripHead
    field_simp
    ring
  rw [heq]
  have h1 : (2 : ℝ) ≤ 6400000000 / Real.pi := by
    rw [le_div_iff hπ]
    nlinarith [Real.pi_lt_four]
  have h2 : (0 : ℝ) ≤ 800000000000000 / Real.pi ^ 2 := by positivity
  linarith

theorem hundredth_rpow_five_halves : ((1/100 : ℝ)) ^ ((5 : ℝ) / 2) = 1 / 100000 := by
  have h1 : ((5 : ℝ) / 2) = (5 : ℝ) * (1 / 2) := by norm_num
  rw [h1, Real.rpow_mul (by norm_num : (0 : ℝ) ≤ 1/100),
    show ((5 : ℝ)) = ((5 : ℕ) : ℝ) by norm_num, Real.rpow_natCast,
    ← Real.sqrt_eq_rpow,
    show ((1/100 : ℝ)) ^ (5 : ℕ) = (1/100000 : ℝ) ^ 2 by norm_num]
  exact Real.sqrt_sq (by norm_num)

theorem flow_pipemajor_roundTrip :
    ∃ s, flow_pipemajor (1/100) roundTripHead 1 (1/2) (1/2) = .ok s ∧
      s < -(Real.pi / 125000) := by
  have hg : 0 < gravity := gravity_pos
  have hπ : 0 < Real.pi := Real.pi_pos
  have hH : 0 < roundTripHead := roundTripHead_pos
  have hagen := flow_hagen_ok (1/100) roundTripHead 1 (1/2) (by norm_num) (by norm_num)
    (le_of_lt hH) (by norm_num) (by norm_num)
  have htrans := flow_transition_ok (1/100) (1/2) (by norm_num) (by norm_num)
    (by norm_num)
  have hFH : Real.pi * (1/100) ^ 4 / (128 * (1/2)) * gravity * roundTripHead / 1 =
      1 + 125000 / Real.pi := by
    have hgne : gravity ≠ 0 := ne_of_gt hg
    unfold roundTripHead
    field_simp
    ring
  have hnotlt : ¬(Real.pi * (1/100) ^ 4 / (128 * (1/2)) * gravity * roundTripHead / 1 <
      Real.pi * (1/100) * RE_TRANSITION_PIPE * (1/2) / 4) := by
    rw [hFH, not_lt]
    unfold RE_TRANSITION_PIPE
    have h2 := Real.pi_lt_d2
    have key1 : Real.pi * (1/100) * 2100 * (1/2) / 4 < 9 := by nlinarith
    have key2 : (39682 : ℝ) < 125000 / Real.pi := by
      rw [lt_div_iff hπ]
      nlinarith
    linarith
  have hswam := flow_swamee_ok (1/100) roundTripHead 1 (1/2) (1/2) (by norm_num) hH
    (by norm_num) (by norm_num) (by norm_num) (by norm_num) (by norm_num)
  have hsq : 0 ≤ 2.51 * (1/2) *
      Real.sqrt (1 / (2 * gravity * roundTripHead * (1/100) ^ 3)) := by positivity
  have hargbase : (1/2 : ℝ) / (3.7 * (1/100)) = 500/37 := by norm_num
  have harg10 : 10 < (1/2 : ℝ) / (3.7 * (1/100)) + 2.51 * (1/2) *
      Real.sqrt (1 / (2 * gravity * roundTripHead * (1/100) ^ 3)) := by
    rw [hargbase]
    nlinarith
  have hargpos : 0 < (1/2 : ℝ) / (3.7 * (1/100)) + 2.51 * (1/2) *
      Real.sqrt (1 / (2 * gravity * roundTripHead * (1/100) ^ 3)) := by linarith
  have hlog : 1 < Real.logb 10 ((1/2 : ℝ) / (3.7 * (1/100)) + 2.51 * (1/2) *
      Real.sqrt (1 / (2 * gravity * roundTripHead * (1/100) ^ 3))) := by
    rw [Real.lt_logb_iff_rpow_lt (by norm_num) hargpos, Real.rpow_one]
    exact harg10
  have hmaj : flow_pipemajor (1/100) roundTripHead 1 (1/2) (1/2) =
      .ok ((Real.pi / Real.sqrt 2) * (1/100 : ℝ) ^ ((5 : ℝ)/2) *
        Real.sqrt (gravity * roundTripHead / 1) *
        (-(Real.logb 10 ((1/2 : ℝ) / (3.7 * (1/100)) + 2.51 * (1/2) *
          Real.sqrt (1 / (2 * gravity * roundTripHead * (1/100) ^ 3)))))) := by
    unfold flow_pipemajor
    rw [hagen, ok_bind, htrans, ok_bind, if_neg hnotlt, hswam]
  rw [hundredth_rpow_five_halves] at hmaj
  refine ⟨_, hmaj, ?_⟩
  have hsqrt2pos : 0 < Real.sqrt 2 := Real.sqrt_pos.mpr (by norm_num)
  have hC : Real.sqrt 2 ≤ Real.sqrt (gravity * roundTripHead / 1) :=
    Real.sqrt_le_sqrt two_le_g_roundTripHead
  have hCpos : 0 < Real.sqrt (gravity * roundTripHead / 1) :=
    lt_of_lt_of_le hsqrt2pos hC
  have step1 : Real.pi / Real.sqrt 2 * (1/100000) * Real.sqrt 2 =
      Real.pi * (1/100000) := by
    field_simp
    ring
  have step2 : Real.pi / Real.sqrt 2 * (1/100000) * Real.sqrt 2 ≤
      Real.pi / Real.sqrt 2 * (1/100000) * Real.sqrt (gravity * roundTripHead / 1) :=
    mul_le_mul_of_nonneg_left hC (by positivity)
  have step3 : Real.pi / Real.sqrt 2 * (1/100000) *
      Real.sqrt (gravity * roundTripHead / 1) ≤
      Real.pi / Real.sqrt 2 * (1/100000) * Real.sqrt (gravity * roundTripHead / 1) *
      Real.logb 10 ((1/2 : ℝ) / (3.7 * (1/100)) + 2.51 * (1/2) *
        Real.sqrt (1 / (2 * gravity * roundTripHead * (1/100) ^ 3))) :=
    le_mul_of_one_le_right (by positivity) (le_of_lt hlog)
  have h0 : Real.pi / 125000 < Real.pi * (1/100000) := by
    rw [mul_one_div]
    exact div_lt_div_of_pos_left hπ (by norm_num) (by norm_num)
  have key : Real.pi / 125000 <
      Real.pi / Real.sqrt 2 * (1/100000) * Real.sqrt (gravity * roundTripHead / 1) *
      Real.logb 10 ((1/2 : ℝ) / (3.7 * (1/100)) + 2.51 * (1/2) *
        Real.sqrt (1 / (2 * gravity * roundTripHead * (1/100) ^ 3))) := by
    linarith
  have hrw : Real.pi / Real.sqrt 2 * (1/100000) *
      Real.sqrt (gravity * roundTripHead / 1) *
      (-(Real.logb 10 ((1/2 : ℝ) / (3.7 * (1/100)) + 2.51 * (1/2) *
        Real.sqrt (1 / (2 * gravity * roundTripHead * (1/100) ^ 3))))) =
      -(Real.pi / Real.sqrt 2 * (1/100000) *
        Real.sqrt (gravity * roundTripHead / 1) *
        Real.logb 10 ((1/2 : ℝ) / (3.7 * (1/100)) + 2.51 * (1/2) *
          Real.sqrt (1 / (2 * gravity * roundTripHead * (1/100) ^ 3)))) := by
    ring
  rw [hrw]
  exact neg_lt_neg key

theorem flow_pipeminor_roundTrip :
    ∃ m, flow_pipeminor (1/100) roundTripHead 1000000 = .ok m ∧ 0 ≤ m := by
  have hg : 0 < gravity := gravity_pos
  have hH := roundTripHead_pos
  have hres : flow_pipeminor (1/100) roundTripHead 1000000 =
      .ok (Real.pi / 4 * (1/100) ^ 2 *
        Real.sqrt (2 * gravity * roundTripHead / 1000000)) := by
    unfold flow_pipeminor
    rw [pand_of_ne _ (ne_of_gt hH),
      if_neg (not_not_intro (by norm_num : (0 : ℝ) ≤ 1000000))]
    unfold area_circle
    rw [if_neg (by norm_num : ¬((1/100 : ℝ) ≤ 0)), ok_bind,
      pydiv_of_ne _ (by norm_num : (1000000 : ℝ) ≠ 0), ok_bind]
  exact ⟨_, hres, by positivity⟩

theorem flowStep_roundTrip (s : ℝ) (hs : s < -(Real.pi / 125000)) :
    flowStep (1/100) 1 (1/2) (1/2) 1000000 roundTripHead s = .error .valueError := by
  have hg : 0 < gravity := gravity_pos
  have hπ : 0 < Real.pi := Real.pi_pos
  have hH := roundTripHead_pos
  have hsneg : s < 0 := lt_trans hs (neg_lt_zero.mpr (by positivity))
  have hs0 : s ≠ 0 := ne_of_lt hsneg
  have hre : re_pipe s (1/100) (1/2) = .ok (4 * s / (Real.pi * (1/100) * (1/2))) := by
    unfold re_pipe
    rw [if_neg (not_not_intro (by norm_num : (0 : ℝ) < 1/2 ∧ (1/2 : ℝ) < 1)),
      pydiv_of_ne _ (by positivity : Real.pi * (1/100) * (1/2) ≠ 0)]
  have hreneg : 4 * s / (Real.pi * (1/100) * (1/2)) < 0 :=
    div_neg_of_neg_of_pos (by linarith) (by positivity)
  have hfric : fric s (1/100) (1/2) (1/2) =
      .ok (64 / (4 * s / (Real.pi * (1/100) * (1/2)))) := by
    unfold fric
    rw [hre, ok_bind, if_neg (not_le.mpr (lt_trans hreneg
      (by norm_num [RE_TRANSITION_PIPE] : (0 : ℝ) < RE_TRANSITION_PIPE))),
      pydiv_of_ne _ (ne_of_lt hreneg)]
  have hhf : headloss_fric s (1/100) 1 (1/2) (1/2) =
      .ok (6400000000 * s / (gravity * Real.pi)) := by
    unfold headloss_fric
    rw [if_neg (by norm_num : ¬((1 : ℝ) ≤ 0)), hfric, ok_bind]
    congr 1
    field_simp
    ring
  have hhe : headloss_exp s (1/100) 1000000 =
      .ok (800000000000000 * s ^ 2 / (gravity * Real.pi ^ 2)) := by
    unfold headloss_exp
    rw [pand_of_ne _ hs0, if_neg (by norm_num : ¬((1/100 : ℝ) ≤ 0)),
      if_neg (by norm_num : ¬((1000000 : ℝ) < 0))]
    congr 1
    field_simp
    ring
  have hinner : 6400000000 * Real.pi + 800000000000000 * s < 0 := by linarith
  have hsum : 0 < 6400000000 * s / (gravity * Real.pi) +
      800000000000000 * s ^ 2 / (gravity * Real.pi ^ 2) := by
    have heq : 6400000000 * s / (gravity * Real.pi) +
        800000000000000 * s ^ 2 / (gravity * Real.pi ^ 2) =
        s * (6400000000 * Real.pi + 800000000000000 * s) /
          (gravity * Real.pi ^ 2) := by
      field_simp
      ring
    rw [heq]
    exact div_pos (mul_pos_of_neg_of_neg hsneg hinner) (by positivity)
  have hnumneg : roundTripHead * (6400000000 * s / (gravity * Real.pi)) < 0 :=
    mul_neg_of_pos_of_neg hH (div_neg_of_neg_of_pos (by linarith) (by positivity))
  have hnewneg : roundTripHead * (6400000000 * s / (gravity * Real.pi)) /
      (6400000000 * s / (gravity * Real.pi) +
        800000000000000 * s ^ 2 / (gravity * Real.pi ^ 2)) < 0 :=
    div_neg_of_neg_of_pos hnumneg hsum
  have hmaj : flow_pipemajor (1/100)
      (roundTripHead * (6400000000 * s / (gravity * Real.pi)) /
        (6400000000 * s / (gravity * Real.pi) +
          800000000000000 * s ^ 2 / (gravity * Real.pi ^ 2))) 1 (1/2) (1/2) =
      .error .valueError := by
    unfold flow_pipemajor flow_hagen
    rw [pand_of_ne _ (by norm_num : (1/100 : ℝ) ≠ 0),
      if_neg (by norm_num : ¬((1 : ℝ) ≤ 0)), if_pos hnewneg, error_bind]
  unfold flowStep
  rw [hhf, ok_bind, hhe, ok_bind, pydiv_of_ne _ (ne_of_gt hsum), ok_bind, hmaj]

/-- Counterexample to claim C8: a valid round-trip input on which
`flow_pipe` never returns any flow rate at all (so in particular none
within 1 percent of the chosen flow).  At diameter `1/100`, length `1`,
viscosity `1/2`, roughness `1/2`, minor-loss coefficient `1000000` and
flow rate `1`, the total head loss is `roundTripHead`
(`headloss_fric + headloss_exp`, first two conjuncts); on that input
the Swamee–Jain initial estimate is negative, the first iteration
produces a negative friction-only target, and the solver raises
`ValueError` instead of returning. -/
theorem flow_pipe_round_trip_never_returns :
    headloss_fric 1 (1/100) 1 (1/2) (1/2) =
      .ok (6400000000 / (gravity * Real.pi)) ∧
    headloss_exp 1 (1/100) 1000000 =
      .ok (800000000000000 / (gravity * Real.pi ^ 2)) ∧
    roundTripHead = 6400000000 / (gravity * Real.pi) +
      800000000000000 / (gravity * Real.pi ^ 2) ∧
    returnsNoFlow (1/100) roundTripHead 1 (1/2) (1/2) 1000000 := by
  have hg : 0 < gravity := gravity_pos
  have hπ : 0 < Real.pi := Real.pi_pos
  refine ⟨?_, ?_, rfl, ?_⟩
  · have hre : re_pipe 1 (1/100) (1/2) = .ok (4 * 1 / (Real.pi * (1/100) * (1/2))) := by
      unfold re_pipe
      rw [if_neg (not_not_intro (by norm_num : (0 : ℝ) < 1/2 ∧ (1/2 : ℝ) < 1)),
        pydiv_of_ne _ (by positivity : Real.pi * (1/100) * (1/2) ≠ 0)]
    have hrelt : 4 * 1 / (Real.pi * (1/100) * (1/2)) < RE_TRANSITION_PIPE := by
      unfold RE_TRANSITION_PIPE
      rw [div_lt_iff (by positivity)]
      nlinarith [Real.pi_gt_three]
    have hrepos : 0 < 4 * 1 / (Real.pi * (1/100) * (1/2)) := by positivity
    have hfric : fric 1 (1/100) (1/2) (1/2) =
        .ok (64 / (4 * 1 / (Real.pi * (1/100) * (1/2)))) := by
      unfold fric
      rw [hre, ok_bind, if_neg (not_le.mpr hrelt), pydiv_of_ne _ (ne_of_gt hrepos)]
    unfold headloss_fric
    rw [if_neg (by norm_num : ¬((1 : ℝ) ≤ 0)), hfric, ok_bind]
    congr 1
    field_simp
    ring
  · unfold headloss_exp
    rw [pand_of_ne _ (by norm_num : (1 : ℝ) ≠ 0),
      if_neg (by norm_num : ¬((1/100 : ℝ) ≤ 0)),
      if_neg (by norm_num : ¬((1000000 : ℝ) < 0))]
    congr 1
    field_simp
    ring
  · obtain ⟨s, hsok, hsneg⟩ := flow_pipemajor_roundTrip
    obtain ⟨m, hmok, hm0⟩ := flow_pipeminor_roundTrip
    have hsm : min s m = s := min_eq_left (le_trans (le_of_lt (lt_trans hsneg
      (neg_lt_zero.mpr (by positivity)))) hm0)
    unfold returnsNoFlow
    intro n q
    cases n with
    | zero =>
      unfold flow_pipe
      rw [if_neg (by norm_num : (1000000 : ℝ) ≠ 0), hsok, ok_bind, hmok, ok_bind,
        hsm, loopGo_zero]
      simp
    | succ n =>
      unfold flow_pipe
      rw [if_neg (by norm_num : (1000000 : ℝ) ≠ 0), hsok, ok_bind, hmok, ok_bind,
        hsm, loopGo_succ, flowStep_roundTrip s hsneg, error_bind]
      simp

/-- Amended claim C8: what survives of the round-trip property.  In the
laminar regime the chosen flow rate is an exact fixed point of the
iteration of the solver: with total head loss `hf + he` computed from the
flow rate, the loop body maps that flow rate to itself (the friction
fraction rescaling recovers exactly `hf`, and the Hagen inversion
recovers exactly the flow), so a converged return starting there
reproduces the flow exactly — trivially within the 1 percent tolerance.
In general the claim fails: see the counterexample, where the solver
never returns. -/
theorem laminar_round_trip_exact_fixed_point
    (Diam Length Nu PipeRough KMinor FlowRate : ℝ)
    (hD : 0 < Diam) (hL : 0 < Length) (hNu0 : 0 < Nu) (hNu1 : Nu < 1)
    (hr0 : 0 < PipeRough) (hr1 : PipeRough < 1) (hK : 0 < KMinor) (hQ : 0 < FlowRate)
    (hlam : 4 * FlowRate / (Real.pi * Diam * Nu) < RE_TRANSITION_PIPE) :
    ∃ hf he, headloss_fric FlowRate Diam Length Nu PipeRough = .ok hf ∧
      headloss_exp FlowRate Diam KMinor = .ok he ∧ 0 < hf ∧ 0 ≤ he ∧
      flowStep Diam Length Nu PipeRough KMinor (hf + he) FlowRate = .ok FlowRate := by
  have hg : 0 < gravity := gravity_pos
  have hπ : 0 < Real.pi := Real.pi_pos
  have hden : 0 < Real.pi * Diam * Nu := by positivity
  have hre : re_pipe FlowRate Diam Nu = .ok (4 * FlowRate / (Real.pi * Diam * Nu)) := by
    unfold re_pipe
    rw [if_neg (not_not_intro ⟨hNu0, hNu1⟩), pydiv_of_ne _ (ne_of_gt hden)]
  have hrepos : 0 < 4 * FlowRate / (Real.pi * Diam * Nu) := by positivity
  have hfric : fric FlowRate Diam Nu PipeRough =
      .ok (64 / (4 * FlowRate / (Real.pi * Diam * Nu))) := by
    unfold fric
    rw [hre, ok_bind, if_neg (not_le.mpr hlam), pydiv_of_ne _ (ne_of_gt hrepos)]
  have hhfval : 64 / (4 * FlowRate / (Real.pi * Diam * Nu)) * 8 /
      (gravity * Real.pi ^ 2) * (Length * FlowRate ^ 2) / Diam ^ 5 =
      128 * Nu * Length * FlowRate / (gravity * Real.pi * Diam ^ 4) := by
    field_simp
    ring
  have hhf : headloss_fric FlowRate Diam Length Nu PipeRough =
      .ok (128 * Nu * Length * FlowRate / (gravity * Real.pi * Diam ^ 4)) := by
    unfold headloss_fric
    rw [if_neg (not_le.mpr hL), hfric, ok_bind, hhfval]
  have hhe : headloss_exp FlowRate Diam KMinor =
      .ok (KMinor * 8 / (gravity * Real.pi ^ 2) * FlowRate ^ 2 / Diam ^ 4) := by
    unfold headloss_exp
    rw [pand_of_ne _ (ne_of_gt hQ), if_neg (not_le.mpr hD),
      if_neg (not_lt.mpr (le_of_lt hK))]
  have hfpos : 0 < 128 * Nu * Length * FlowRate / (gravity * Real.pi * Diam ^ 4) := by
    positivity
  have hepos : 0 ≤ KMinor * 8 / (gravity * Real.pi ^ 2) * FlowRate ^ 2 / Diam ^ 4 := by
    positivity
  have hsum : 0 < 128 * Nu * Length * FlowRate / (gravity * Real.pi * Diam ^ 4) +
      KMinor * 8 / (gravity * Real.pi ^ 2) * FlowRate ^ 2 / Diam ^ 4 := by linarith
  refine ⟨_, _, hhf, hhe, hfpos, hepos, ?_⟩
  unfold flowStep
  rw [hhf, ok_bind, hhe, ok_bind, pydiv_of_ne _ (ne_of_gt hsum), ok_bind,
    mul_div_cancel_left₀ _ (ne_of_gt hsum)]
  have hagen := flow_hagen_ok Diam
    (128 * Nu * Length * FlowRate / (gravity * Real.pi * Diam ^ 4)) Length Nu
    (ne_of_gt hD) hL (le_of_lt hfpos) hNu0 hNu1
  have hQeq : Real.pi * Diam ^ 4 / (128 * Nu) * gravity *
      (128 * Nu * Length * FlowRate / (gravity * Real.pi * Diam ^ 4)) / Length =
      FlowRate := by
    field_simp
    ring
  have hQlt : FlowRate < Real.pi * Diam * RE_TRANSITION_PIPE * Nu / 4 := by
    unfold RE_TRANSITION_PIPE at hlam ⊢
    rw [div_lt_iff hden] at hlam
    nlinarith
  unfold flow_pipemajor
  rw [hagen, ok_bind, flow_transition_ok Diam Nu hD hNu0 hNu1, ok_bind, hQeq,
    if_pos hQlt]

/-- Witness for the amended claim C8 at a concrete laminar input. -/
theorem laminar_round_trip_exact_fixed_point_witness :
    ∃ hf he, headloss_fric 1 1 1 (1/2) (1/2) = .ok hf ∧
      headloss_exp 1 1 1 = .ok he ∧ 0 < hf ∧ 0 ≤ he ∧
      flowStep 1 1 (1/2) (1/2) 1 (hf + he) 1 = .ok 1 := by
  refine laminar_round_trip_exact_fixed_point 1 1 (1/2) (1/2) 1 1 (by norm_num)
    (by norm_num) (by norm_num) (by norm_num) (by norm_num) (by norm_num)
    (by norm_num) (by norm_num) ?_
  unfold RE_TRANSITION_PIPE
  rw [div_lt_iff (by positivity)]
  nlinarith [Real.pi_gt_three]

end Physchem
